import Mathlib

/-!
# SearchHide — verification of the content-script core

Shallow embedding of the SearchHide browser extension (files
`src/unnamed/part_000` — the `Provider`-class variant, `src/content.js` —
the older variant, and `src/options.js`).  DOM elements are modelled as
explicit data (class lists, anchor descendants, flat containers), the
persisted `hidden_sites` value as `Option (List String)` (absent =
`none`), and JavaScript exceptions as an explicit error component.
-/

namespace SearchHide

/-! ## Characters and strings: substring test and the URL hostname model -/

/-- `csStartsWith s pat`: `pat` is a prefix of the character list `s`. -/
def csStartsWith : List Char → List Char → Bool
  | _, [] => true
  | [], _ :: _ => false
  | a :: as, b :: bs => a == b && csStartsWith as bs

/-- Substring containment on character lists. -/
def csContains : List Char → List Char → Bool
  | [], pat => csStartsWith [] pat
  | a :: as, pat => csStartsWith (a :: as) pat || csContains as pat

/-- Model of JavaScript `String.prototype.startsWith`. -/
def strStartsWith (s pat : String) : Bool := csStartsWith s.data pat.data

/-- Model of JavaScript `String.prototype.includes`. -/
def strIncludes (s pat : String) : Bool := csContains s.data pat.data

/-- Split a character list on a separator character (model of
JavaScript `String.prototype.split` with a one-character separator). -/
def csSplitOnChar (sep : Char) : List Char → List (List Char)
  | [] => [[]]
  | c :: cs =>
    let rest := csSplitOnChar sep cs
    if c == sep then [] :: rest
    else
      match rest with
      | [] => [[c]]
      | g :: gs => (c :: g) :: gs

/-- Split a string into its newline-separated lines. -/
def splitLines (s : String) : List String :=
  (csSplitOnChar '\n' s.data).map String.mk

/-- Split a string on spaces. -/
def splitSpaces (s : String) : List String :=
  (csSplitOnChar ' ' s.data).map String.mk

/-- JavaScript whitespace for `trim` purposes. -/
def isSpaceChar (c : Char) : Bool :=
  c == ' ' || c == '\t' || c == '\r' || c == '\n'

/-- Model of JavaScript `String.prototype.trim`. -/
def strTrim (s : String) : String :=
  String.mk (((s.data.dropWhile isSpaceChar).reverse.dropWhile isSpaceChar).reverse)

/-- Scan a URL scheme: consumes alphabetic characters, then requires
`"://"`, returning the remaining characters.  The `seen` flag records
whether at least one scheme character has been read. -/
def schemeSplit : Bool → List Char → Option (List Char)
  | _, [] => none
  | seen, c :: cs =>
    if c == ':' then
      if seen then
        match cs with
        | '/' :: '/' :: rest => some rest
        | _ => none
      else none
    else if c.isAlpha then schemeSplit true cs
    else none

/-- Characters of the host component: everything up to the first
`'/'`, `':'`, `'?'` or `'#'`. -/
def hostChars : List Char → List Char
  | [] => []
  | c :: cs =>
    if c == '/' || c == ':' || c == '?' || c == '#' then []
    else c :: hostChars cs

/-- Model of the browser's `new URL(s).hostname` for the fragment of URL
syntax this extension works with: `scheme://host[/…]` with an
alphabetic scheme and a non-empty host, the host lowercased.  Inputs
outside this fragment — in particular the empty string, on which the
real `URL` constructor throws a `TypeError` — are modelled as parse
failures (`none`). -/
def parseHostname (s : String) : Option String :=
  match schemeSplit false s.data with
  | none => none
  | some rest =>
    match hostChars rest with
    | [] => none
    | cs => some (String.mk (cs.map Char.toLower))

/-! ## JavaScript runtime errors surfaced by the content script -/

/-- Exceptions the content script can raise: the `URL` constructor
throwing on an unparseable string, reading `.text` of a `null`
`lastChild`, and calling `.includes` on `undefined`. -/
inductive JsError
  | urlTypeError
  | nullDeref
  | undefinedDeref
deriving Repr, DecidableEq

/-- Outcome of a JavaScript computation: a value, or a thrown exception. -/
inductive JsResult (α : Type)
  | ok (a : α)
  | error (e : JsError)
deriving Repr, DecidableEq

/-! ## Result elements

A search-result element is modelled by its class list and its child
nodes.  A child is either an anchor (`<a>`, carrying `href`, its `.text`
content, an optional `class` and an optional `data-link` attribute) or a
non-anchor element that may itself contain anchor descendants. -/

structure Anchor where
  href : String
  text : String
  className : Option String
  dataLink : Option String
deriving Repr, DecidableEq

inductive Child
  | anchor (a : Anchor)
  | wrapped (anchors : List Anchor)
deriving Repr, DecidableEq

structure ResultElement where
  classes : List String
  children : List Child
deriving Repr, DecidableEq

/-- Anchor descendants of a result element in document order
(`getElementsByTagName("a")`). -/
def anchorsOf (r : ResultElement) : List Anchor :=
  r.children.flatMap fun c =>
    match c with
    | .anchor a => [a]
    | .wrapped as => as

/-- `Provider.getLinkFromResultElement` (part_000 lines 33–42), default
strategy (no `linkClass` argument is passed anywhere in part_000): the
first anchor descendant's `href`, or `""` when there is none. -/
def getLinkFromResultElement (r : ResultElement) : String :=
  match anchorsOf r with
  | [] => ""
  | a :: _ => a.href

/-- `.text` of `result.lastChild`: `none` when the element has no
children (`lastChild` is `null`), `some none` when the last child is not
an anchor (`.text` is `undefined`), `some (some t)` when it is an anchor
with text `t`. -/
def lastChildText (r : ResultElement) : Option (Option String) :=
  match r.children.getLast? with
  | none => none
  | some (.anchor a) => some (some a.text)
  | some (.wrapped _) => some none

/-- `classList.add`: append the token unless already present. -/
def addClassOnce (cs : List String) (c : String) : List String :=
  if cs.contains c then cs else cs ++ [c]

/-- `classList.remove`: drop the token. -/
def removeClassAll (cs : List String) (c : String) : List String :=
  cs.filter (fun x => x != c)

/-! ## `shouldHide` — both variants -/

/-- `shouldHide` of `src/unnamed/part_000` (lines 183–186): an absent or
empty `hidden_sites` value yields `false` before any URL parsing;
otherwise the link is parsed (the `URL` constructor throwing on failure)
and membership of its hostname in the list is tested. -/
def shouldHide (link : String) (hiddenSites : Option (List String)) :
    JsResult Bool :=
  match hiddenSites with
  | none => .ok false
  | some sites =>
    if sites.length == 0 then .ok false
    else
      match parseHostname link with
      | none => .error .urlTypeError
      | some h => .ok (sites.contains h)

/-- `shouldHide` of `src/content.js` (lines 86–88): no guard — the link
is parsed first, then `.includes` is called on the stored value, which
throws a `TypeError` when that value is `undefined`. -/
def shouldHideContentJs (link : String) (hiddenSites : Option (List String)) :
    JsResult Bool :=
  match parseHostname link with
  | none => .error .urlTypeError
  | some h =>
    match hiddenSites with
    | none => .error .undefinedDeref
    | some sites => .ok (sites.contains h)

/-! ## One reconciliation pass (`processResults`, part_000 lines 199–219)

A pass iterates over the snapshot of enumerated (not-yet-hidden) result
elements.  DOM writes are recorded as events: a write is recorded only
when it changes the DOM (adding a class already present, or removing an
absent one, is a no-op). -/

/-- An effective DOM write performed by the extension. -/
inductive WriteEvent
  | markerInserted (host : String)
  | markerRemoved
  | classAdded (c : String)
  | classRemoved (c : String)
  | controlAppended (dataLink : String)
deriving Repr, DecidableEq

/-- Class transformation of `hideResult`: `classList.add("hidden")`. -/
def hideClassTransform (cs : List String) : List String :=
  addClassOnce cs "hidden"

/-- Class transformation of the else-branch of `processResults`:
`classList.remove("hidden")`. -/
def showClassTransform (cs : List String) : List String :=
  removeClassAll cs "hidden"

/-- Class transformation of `unhideResult`:
`classList.remove("hidden"); classList.add("unhidden")`. -/
def unhideClassTransform (cs : List String) : List String :=
  addClassOnce (removeClassAll cs "hidden") "unhidden"

/-- `Provider.hideResult` (part_000 lines 61–70) restricted to the result
element itself: `createResultHiddenElement` re-extracts and parses the
link (the `URL` constructor throwing on failure), the marker is inserted
into the parent, and `"hidden"` is added to the result's class list. -/
def hideResultW (r : ResultElement) :
    ResultElement × List WriteEvent × Option JsError :=
  match parseHostname (getLinkFromResultElement r) with
  | none => (r, [], some .urlTypeError)
  | some h =>
    ({ r with classes := hideClassTransform r.classes },
     .markerInserted h ::
       (if r.classes.contains "hidden" then [] else [.classAdded "hidden"]),
     none)

/-- `Provider.addLink` (part_000 lines 102–132): when the result's link
is empty the function returns without touching the DOM; otherwise an
anchor with class `hide-result-link`, text `hidePrompt` and a
`data-link` attribute is appended to the result. -/
def addLinkW (hidePrompt : String) (r : ResultElement) :
    ResultElement × List WriteEvent :=
  let resultLink := getLinkFromResultElement r
  if resultLink.length == 0 then (r, [])
  else
    ({ r with children := r.children ++
        [.anchor ⟨"javascript:;", hidePrompt, some "hide-result-link", some resultLink⟩] },
     [.controlAppended resultLink])

/-- The tail of the loop body (part_000 lines 212–216) — guarded by
`result.lastChild.text !== hidePrompt` (reading `.text` of a `null`
`lastChild` throws), append the hide-control. -/
def controlStep (hidePrompt : String) (r1 : ResultElement)
    (evs : List WriteEvent) : ResultElement × List WriteEvent × Option JsError :=
  match lastChildText r1 with
  | none => (r1, evs, some .nullDeref)
  | some t =>
    if t == some hidePrompt then (r1, evs, none)
    else
      let (r2, evs2) := addLinkW hidePrompt r1
      (r2, evs ++ evs2, none)

/-- The per-result body of the `processResults` loop (part_000 lines
204–216), parameterized by the `shouldHide` variant in use: decide
hiding, hide or clear the `"hidden"` flag, then run `controlStep`.  The
result's state after any throw reflects the mutations already
performed. -/
def processOneWith (sh : String → Option (List String) → JsResult Bool)
    (hidePrompt : String) (stored : Option (List String)) (r : ResultElement) :
    ResultElement × List WriteEvent × Option JsError :=
  let link := getLinkFromResultElement r
  match sh link stored with
  | .error e => (r, [], some e)
  | .ok hide =>
    let step1 : ResultElement × List WriteEvent × Option JsError :=
      if hide then hideResultW r
      else
        ({ r with classes := showClassTransform r.classes },
         if r.classes.contains "hidden" then [.classRemoved "hidden"] else [],
         none)
    match step1 with
    | (r1, evs, some e) => (r1, evs, some e)
    | (r1, evs, none) => controlStep hidePrompt r1 evs

/-- The per-result loop body with part_000's `shouldHide`. -/
def processOne (hidePrompt : String) (stored : Option (List String))
    (r : ResultElement) : ResultElement × List WriteEvent × Option JsError :=
  processOneWith shouldHide hidePrompt stored r

/-- One reconciliation pass over the page's result elements,
parameterized by the `shouldHide` variant.  Elements already carrying
`"hidden"` are not enumerated (`getResultElements` filters them out); a
thrown exception aborts the loop, leaving the remaining elements
untouched.  Returns the page's results after the pass, the DOM writes
performed, and the exception if one aborted the pass. -/
def reconcilePageWith (sh : String → Option (List String) → JsResult Bool)
    (hidePrompt : String) (stored : Option (List String)) :
    List ResultElement → List ResultElement × List WriteEvent × Option JsError
  | [] => ([], [], none)
  | r :: rs =>
    if r.classes.contains "hidden" then
      match reconcilePageWith sh hidePrompt stored rs with
      | (rs', evs, err) => (r :: rs', evs, err)
    else
      match processOneWith sh hidePrompt stored r with
      | (r', evs, some e) => (r' :: rs, evs, some e)
      | (r', evs, none) =>
        match reconcilePageWith sh hidePrompt stored rs with
        | (rs', evs', err) => (r' :: rs', evs ++ evs', err)

/-- One reconciliation pass of the part_000 variant. -/
def reconcilePage (hidePrompt : String) (stored : Option (List String))
    (page : List ResultElement) :
    List ResultElement × List WriteEvent × Option JsError :=
  reconcilePageWith shouldHide hidePrompt stored page

/-- One reconciliation pass of the content.js variant (same loop body,
unguarded `shouldHide`). -/
def reconcilePageContentJs (hidePrompt : String) (stored : Option (List String))
    (page : List ResultElement) :
    List ResultElement × List WriteEvent × Option JsError :=
  reconcilePageWith shouldHideContentJs hidePrompt stored page

/-- Membership of a hostname in the persisted value, an absent value
having no members. -/
def storedContains (stored : Option (List String)) (h : String) : Bool :=
  match stored with
  | none => false
  | some sites => sites.contains h

/-! ## Provider registry (part_000 lines 7–17, 135–176) -/

/-- `HiddenLinkPlacement` (part_000 lines 7–10). -/
inductive Placement
  | prepend
  | insertBefore
deriving Repr, DecidableEq

/-- A `Provider` instance: name, result class and marker placement
(the constructor's `hiddenLinkPlacement` parameter defaults to
`Prepend`). -/
structure ProviderDesc where
  name : String
  resultClass : String
  placement : Placement
deriving Repr, DecidableEq

/-- The fallback descriptor `new Provider("Unknown", "")`. -/
def unknownProvider : ProviderDesc := ⟨"Unknown", "", .prepend⟩

/-- `searchProvider` (part_000 lines 135–174): the if-chain on
`document.domain`.  Bing, Yahoo, Ask.com, Yandex and SearchEncrypt pass
no placement argument and therefore get the default `Prepend`. -/
def searchProvider (hostname : String) : ProviderDesc :=
  if strStartsWith hostname "duckduckgo." then
    ⟨"Duck Duck Go", "result__body links_main", .prepend⟩
  else if strIncludes hostname ".bing." then ⟨"Bing", "b_algo", .prepend⟩
  else if strIncludes hostname ".google." then ⟨"Google", "rc", .prepend⟩
  else if strIncludes hostname "search.yahoo.com" then ⟨"Yahoo", "algo-sr", .prepend⟩
  else if strIncludes hostname ".ask.com" then ⟨"Ask.com", "PartialSearchResults-item", .prepend⟩
  else if strIncludes hostname "yandex.ru" then ⟨"Yandex", "serp-item", .prepend⟩
  else if strIncludes hostname "searchencrypt.com" then ⟨"SearchEncrypt", "web-result", .prepend⟩
  else unknownProvider

/-- A hostname pattern of the provider table: a prefix match
(`String.startsWith`) or a substring match (`String.includes`). -/
inductive HostPattern
  | hostPre (p : String)
  | hostSub (s : String)
deriving Repr, DecidableEq

def matchesPattern : HostPattern → String → Bool
  | .hostPre p, h => strStartsWith h p
  | .hostSub s, h => strIncludes h s

/-- Modelled from the spec: "a fixed ordered table" of
"substring/prefix matches" — the patterns and descriptors of
part_000's if-chain as data, in source order. -/
def providerTable : List (HostPattern × ProviderDesc) :=
  [(.hostPre "duckduckgo.", ⟨"Duck Duck Go", "result__body links_main", .prepend⟩),
   (.hostSub ".bing.", ⟨"Bing", "b_algo", .prepend⟩),
   (.hostSub ".google.", ⟨"Google", "rc", .prepend⟩),
   (.hostSub "search.yahoo.com", ⟨"Yahoo", "algo-sr", .prepend⟩),
   (.hostSub ".ask.com", ⟨"Ask.com", "PartialSearchResults-item", .prepend⟩),
   (.hostSub "yandex.ru", ⟨"Yandex", "serp-item", .prepend⟩),
   (.hostSub "searchencrypt.com", ⟨"SearchEncrypt", "web-result", .prepend⟩)]

/-- Modelled from the spec: scan the ordered table, "first match wins",
falling back to the Unknown descriptor. -/
def firstMatch : List (HostPattern × ProviderDesc) → String → ProviderDesc
  | [], _ => unknownProvider
  | (pat, p) :: rest, h =>
    if matchesPattern pat h then p else firstMatch rest h

/-! ## DOM tree and result enumeration (part_000 lines 23–26,
content.js lines 66–73) -/

/-- A DOM element: tag name, class list, child elements. -/
inductive DomNode
  | el (tag : String) (classes : List String) (children : List DomNode)

def DomNode.tagOf : DomNode → String
  | .el t _ _ => t

def DomNode.classesOf : DomNode → List String
  | .el _ cs _ => cs

def DomNode.childrenOf : DomNode → List DomNode
  | .el _ _ ch => ch

mutual
/-- All elements of a subtree in document (preorder) order. -/
def allNodes : DomNode → List DomNode
  | .el t cs ch => .el t cs ch :: allNodesL ch
def allNodesL : List DomNode → List DomNode
  | [] => []
  | n :: ns => allNodes n ++ allNodesL ns
end

/-- `getElementsByClassName` splits its argument on whitespace and
returns the elements carrying every resulting token; with no tokens it
returns no elements. -/
def classTokens (s : String) : List String :=
  (splitSpaces s).filter (fun t => t != "")

def matchesClassNames (classNames : String) (classes : List String) : Bool :=
  !(classTokens classNames).isEmpty &&
    (classTokens classNames).all (fun t => classes.contains t)

/-- `document.getElementsByClassName(resultClass)` over the modelled
document. -/
def getElementsByClassName (classNames : String) (doc : DomNode) : List DomNode :=
  (allNodes doc).filter (fun n => matchesClassNames classNames n.classesOf)

/-- `Provider.getResultElements` (part_000 lines 23–26, identical in
content.js's base class): the result-class elements not already marked
hidden.  A pure read of the document. -/
def getResultElements (resultClass : String) (doc : DomNode) : List DomNode :=
  (getElementsByClassName resultClass doc).filter
    (fun n => !(n.classesOf.contains "hidden"))

mutual
/-- All elements of a subtree paired with their parent (`none` for the
subtree's root), in document order. -/
def nodesWithParent (parent : Option DomNode) : DomNode → List (Option DomNode × DomNode)
  | .el t cs ch => (parent, .el t cs ch) :: nodesWithParentL (some (.el t cs ch)) ch
def nodesWithParentL (parent : Option DomNode) :
    List DomNode → List (Option DomNode × DomNode)
  | [] => []
  | n :: ns => nodesWithParent parent n ++ nodesWithParentL parent ns
end

/-- The Yahoo override of `getResultElements` in content.js (lines
66–73): `document.querySelectorAll("div.algo-sr")` mapped to each
match's `parentElement` — with no filtering of already-hidden
elements. -/
def yahooGetResultElements (doc : DomNode) : List (Option DomNode) :=
  ((nodesWithParent none doc).filter
      (fun p => p.2.tagOf == "div" && p.2.classesOf.contains "algo-sr")).map
    (fun p => p.1)

/-- `waitForElements` (part_000 lines 192–197) with explicit fuel and an
explicit sequence of document states, one per poll: polls
`getResultElements` every 500 ms until it is non-empty. -/
def waitForElementsSeq (resultClass : String) (doms : Nat → DomNode) :
    Nat → Option (List DomNode)
  | 0 => none
  | fuel + 1 =>
    let es := getResultElements resultClass (doms 0)
    if es.isEmpty then waitForElementsSeq resultClass (fun k => doms (k + 1)) fuel
    else some es

/-! ## Marker placement and inverse lookup (part_000 lines 47–56, 61–70,
75–84, 89–97)

A result's parent element is modelled as a flat list of sibling nodes:
marker divs created by `hideResult`, result elements, and other
elements.  (In the pages this extension targets, the provider's result
class appears only on these siblings, so the container-level search
models `parentElement.getElementsByClassName(resultClass)[0]`.) -/

inductive PNode
  | marker (host : String) (classes : List String)
  | res (r : ResultElement)
  | plain (classes : List String)
deriving Repr, DecidableEq

def PNode.pclasses : PNode → List String
  | .marker _ cs => cs
  | .res r => r.classes
  | .plain cs => cs

def PNode.withClasses : PNode → List String → PNode
  | .marker h _, cs => .marker h cs
  | .res r, cs => .res { r with classes := cs }
  | .plain _, cs => .plain cs

/-- Insert a node at position `i` (the DOM's
`parentElement.insertBefore(m, nodes[i])`, appending when `i` is past
the end). -/
def insertAt (i : Nat) (m : PNode) : List PNode → List PNode
  | l =>
    match i, l with
    | 0, l => m :: l
    | _ + 1, [] => [m]
    | i + 1, x :: xs => x :: insertAt i m xs

/-- `Provider.hideResult` (part_000 lines 61–70) acting on the container
holding the result at index `i`: `createResultHiddenElement` parses the
result's link (throwing on failure, modelled as `none`), the marker div
(class `result-hidden`, labelled with the hostname) is inserted before
the result for `InsertBefore` and prepended to the parent otherwise,
and `"hidden"` is added to the result's classes. -/
def hideResultC (p : ProviderDesc) (nodes : List PNode) (i : Nat) :
    Option (List PNode) :=
  match nodes.get? i with
  | some (.res r) =>
    match parseHostname (getLinkFromResultElement r) with
    | none => none
    | some h =>
      let m : PNode := .marker h ["result-hidden"]
      let nodes1 := nodes.set i (.res { r with classes := hideClassTransform r.classes })
      some (match p.placement with
        | .insertBefore => insertAt i m nodes1
        | .prepend => m :: nodes1)
  | _ => none

/-- Index of the first node carrying every token of the provider's
result class
(`linkElement.parentElement.getElementsByClassName(this.resultClass)[0]`). -/
def firstResClassIdx (resultClass : String) : List PNode → Option Nat
  | [] => none
  | n :: ns =>
    if matchesClassNames resultClass n.pclasses then some 0
    else (firstResClassIdx resultClass ns).map (· + 1)

/-- `Provider.getResultFromHideLink` (part_000 lines 47–56) for the
marker at index `j`: for Bing and Yahoo the marker's
`nextElementSibling`, otherwise the first result-class element of the
marker's parent.  `none` models a `null` lookup result. -/
def getResultFromHideLinkC (p : ProviderDesc) (nodes : List PNode) (j : Nat) :
    Option Nat :=
  if p.name == "Bing" || p.name == "Yahoo" then
    if j + 1 < nodes.length then some (j + 1) else none
  else firstResClassIdx p.resultClass nodes

/-- `Provider.unhideResult` (part_000 lines 89–97) for a click on the
marker at index `j`: locate the target via `getResultFromHideLink`,
remove `"hidden"` and add `"unhidden"` on it, then remove the marker
node. -/
def unhideResultC (p : ProviderDesc) (nodes : List PNode) (j : Nat) :
    Option (List PNode) :=
  match nodes.get? j with
  | some (.marker _ _) =>
    match getResultFromHideLinkC p nodes j with
    | none => none
    | some k =>
      match nodes.get? k with
      | none => none
      | some target =>
        let nodes1 := nodes.set k (target.withClasses (unhideClassTransform target.pclasses))
        some (nodes1.eraseIdx j)
  | _ => none

/-- Hide the result at index `i`, then click the marker `hideResult`
just created (index `0` after a prepend, index `i` after an
insert-before). -/
def hideThenUnhide (p : ProviderDesc) (nodes : List PNode) (i : Nat) :
    Option (List PNode) :=
  match hideResultC p nodes i with
  | none => none
  | some nodes' =>
    let j := match p.placement with
      | .prepend => 0
      | .insertBefore => i
    unhideResultC p nodes' j

/-! ## Mutation watcher (part_000 lines 89–97, 241–246, 251–268)

The observer's connection state around each handler's statements,
modelled as the ordered list of observer-relevant steps each handler
performs. -/

/-- A step of a handler, as seen by the mutation watcher: suspending or
resuming the observer, or a DOM write. -/
inductive ObsStep
  | disconnect
  | reconnect
  | write (w : WriteEvent)
deriving Repr, DecidableEq

/-- Statement order of `Provider.unhideResult` (part_000 lines 89–97):
`observer.disconnect()`, the three DOM mutations, `setupObserver()`. -/
def unhideSteps : List ObsStep :=
  [.disconnect, .write (.classRemoved "hidden"), .write (.classAdded "unhidden"),
   .write .markerRemoved, .reconnect]

/-- Statement order of the `MutationObserver` callback (part_000 lines
241–246): it invokes `processSearchPage()` directly — the pass's DOM
writes happen with no disconnect/reconnect around them. -/
def observerCallbackSteps (passWrites : List WriteEvent) : List ObsStep :=
  passWrites.map ObsStep.write

/-- Pair every step with the observer's connection state in effect when
the step executes, starting from `connected`. -/
def traceWith (connected : Bool) : List ObsStep → List (Bool × ObsStep)
  | [] => []
  | s :: rest =>
    (connected, s) ::
      traceWith (match s with
        | .disconnect => false
        | .reconnect => true
        | .write _ => connected) rest

/-! ## Settings writers (options.js lines 3–21, part_000 lines 113–127) -/

/-- `saveOptions` (options.js lines 3–21): the textarea content split on
newlines, each line trimmed, empty lines and duplicates dropped — the
surviving lines stored verbatim, with no URL parsing. -/
def saveOptions (text : String) : List String :=
  (splitLines text).foldl
    (fun acc site =>
      let site := strTrim site
      if !acc.contains site && site.length > 0 then acc ++ [site] else acc)
    []

/-- The hide-link click handler (part_000 lines 113–127): read the
stored list (absent becomes `[]`), parse the control's `data-link` URL
(throwing on failure), and append its hostname unless already
present. -/
def addLinkClick (dataLink : String) (stored : Option (List String)) :
    JsResult (List String) :=
  let hiddenSites := stored.getD []
  match parseHostname dataLink with
  | none => .error .urlTypeError
  | some h =>
    .ok (if hiddenSites.contains h then hiddenSites else hiddenSites ++ [h])

/-- A sequence of reconciliation passes (part_000: every trigger —
settings change or observed mutation — re-runs `processSearchPage`),
each pass reading the then-current stored value. -/
def applyPasses (passes : List (String × Option (List String)))
    (page : List ResultElement) : List ResultElement :=
  passes.foldl (fun pg hs => (reconcilePage hs.1 hs.2 pg).1) page

/-! ## Class-list algebra -/

theorem contains_addClassOnce_self (cs : List String) (c : String) :
    (addClassOnce cs c).contains c = true := by
  unfold addClassOnce
  split
  · assumption
  · simp

theorem contains_addClassOnce_of_contains (cs : List String) (c d : String)
    (h : cs.contains d = true) : (addClassOnce cs c).contains d = true := by
  unfold addClassOnce
  split
  · exact h
  · simp at h ⊢
    exact Or.inl h

theorem contains_addClassOnce_ne (cs : List String) (c d : String)
    (hne : d ≠ c) : (addClassOnce cs c).contains d = cs.contains d := by
  unfold addClassOnce
  split
  · rfl
  · simp [hne]

theorem contains_removeClassAll_self (cs : List String) (c : String) :
    (removeClassAll cs c).contains c = false := by
  simp [removeClassAll, List.mem_filter]

theorem contains_eq_decide_mem (cs : List String) (c : String) :
    cs.contains c = decide (c ∈ cs) := List.elem_eq_mem c cs

theorem contains_removeClassAll_ne (cs : List String) (c d : String)
    (hne : d ≠ c) : (removeClassAll cs c).contains d = cs.contains d := by
  rw [contains_eq_decide_mem, contains_eq_decide_mem, decide_eq_decide]
  simp [removeClassAll, List.mem_filter, hne]

theorem removeClassAll_of_not_contains (cs : List String) (c : String)
    (h : cs.contains c = false) : removeClassAll cs c = cs := by
  simp at h
  rw [removeClassAll, List.filter_eq_self]
  intro a ha
  simp only [bne_iff_ne]
  exact fun hac => h (hac ▸ ha)

theorem removeClassAll_addClassOnce_self (cs : List String) (c : String)
    (h : cs.contains c = false) : removeClassAll (addClassOnce cs c) c = cs := by
  unfold addClassOnce
  rw [if_neg (by rw [h]; exact Bool.false_ne_true)]
  rw [removeClassAll, List.filter_append, ← removeClassAll]
  rw [removeClassAll_of_not_contains cs c h]
  simp

/-! ## Per-element helpers for the reconciliation loop -/

theorem getLink_eq_empty_of_anchors_nil (r : ResultElement)
    (h : anchorsOf r = []) : getLinkFromResultElement r = "" := by
  unfold getLinkFromResultElement
  rw [h]

theorem parseHostname_empty : parseHostname "" = none := rfl

theorem anchors_ne_nil_of_parse (r : ResultElement) (host : String)
    (h : parseHostname (getLinkFromResultElement r) = some host) :
    anchorsOf r ≠ [] := by
  intro hnil
  rw [getLink_eq_empty_of_anchors_nil r hnil, parseHostname_empty] at h
  cases h

theorem children_ne_nil_of_anchors (r : ResultElement)
    (h : anchorsOf r ≠ []) : r.children ≠ [] := by
  intro hnil
  apply h
  unfold anchorsOf
  rw [hnil]
  rfl

theorem lastChildText_isSome_of_children (r : ResultElement)
    (h : r.children ≠ []) : ∃ t, lastChildText r = some t := by
  unfold lastChildText
  cases hl : r.children.getLast? with
  | none =>
    rw [← Option.not_isSome_iff_eq_none, List.getLast?_isSome] at hl
    exact absurd h hl
  | some c =>
    cases c with
    | anchor a => exact ⟨some a.text, rfl⟩
    | wrapped as => exact ⟨none, rfl⟩

theorem addLinkW_classes (hidePrompt : String) (r : ResultElement) :
    ((addLinkW hidePrompt r).1).classes = r.classes := by
  simp only [addLinkW]
  split
  · rfl
  · rfl

theorem anchorsOf_mk_append (cs : List String) (ch₁ ch₂ : List Child) :
    anchorsOf ⟨cs, ch₁ ++ ch₂⟩ = anchorsOf ⟨cs, ch₁⟩ ++ anchorsOf ⟨cs, ch₂⟩ := by
  simp [anchorsOf, List.flatMap_append]

theorem anchors_ne_nil_of_link_ne_empty (r : ResultElement)
    (h : getLinkFromResultElement r ≠ "") : anchorsOf r ≠ [] :=
  fun hnil => h (getLink_eq_empty_of_anchors_nil r hnil)

theorem getLink_append_anchor (r : ResultElement) (a : Anchor)
    (h : anchorsOf r ≠ []) :
    getLinkFromResultElement ⟨r.classes, r.children ++ [.anchor a]⟩ =
      getLinkFromResultElement r := by
  unfold getLinkFromResultElement
  rw [show anchorsOf ⟨r.classes, r.children ++ [.anchor a]⟩ =
        anchorsOf ⟨r.classes, r.children⟩ ++ anchorsOf ⟨r.classes, [.anchor a]⟩ from
      anchorsOf_mk_append r.classes r.children [.anchor a]]
  cases hA : anchorsOf r with
  | nil => exact absurd hA h
  | cons b bs => rfl

theorem lastChildText_mk_concat_anchor (cs : List String) (ch : List Child)
    (a : Anchor) :
    lastChildText ⟨cs, ch ++ [.anchor a]⟩ = some (some a.text) := by
  simp [lastChildText, List.getLast?_concat]

/-! ## `controlStep` characterization -/

theorem controlStep_classes (hidePrompt : String) (r1 : ResultElement)
    (evs : List WriteEvent) :
    ((controlStep hidePrompt r1 evs).1).classes = r1.classes := by
  unfold controlStep
  cases lastChildText r1 with
  | none => rfl
  | some t =>
    simp only
    split
    · rfl
    · rcases h : addLinkW hidePrompt r1 with ⟨r2, evs2⟩
      have hc := addLinkW_classes hidePrompt r1
      rw [h] at hc
      simp only [h]
      exact hc

theorem controlStep_err_none (hidePrompt : String) (r1 : ResultElement)
    (evs : List WriteEvent) (hch : r1.children ≠ []) :
    (controlStep hidePrompt r1 evs).2.2 = none := by
  obtain ⟨t, ht⟩ := lastChildText_isSome_of_children r1 hch
  unfold controlStep
  rw [ht]
  simp only
  split
  · rfl
  · rcases h : addLinkW hidePrompt r1 with ⟨r2, evs2⟩
    rfl

/-! ## Per-element lemmas -/

theorem shouldHide_none_eq (link : String) : shouldHide link none = .ok false := rfl

theorem shouldHide_nil_eq (link : String) : shouldHide link (some []) = .ok false := rfl

theorem shouldHide_cons_of_parse (link host s : String) (ss : List String)
    (h : parseHostname link = some host) :
    shouldHide link (some (s :: ss)) = .ok ((s :: ss).contains host) := by
  simp only [shouldHide]
  rw [if_neg (by simp), h]

theorem children_ne_nil_of_lastChildText (r : ResultElement) (t : Option String)
    (h : lastChildText r = some t) : r.children ≠ [] := by
  intro hnil
  rw [show lastChildText r = none from by unfold lastChildText; rw [hnil]; rfl] at h
  cases h

theorem processOne_of_false (hidePrompt : String) (stored : Option (List String))
    (r : ResultElement)
    (hsh : shouldHide (getLinkFromResultElement r) stored = .ok false)
    (hch : r.children ≠ []) :
    (processOne hidePrompt stored r).2.2 = none ∧
    ((processOne hidePrompt stored r).1).classes = showClassTransform r.classes := by
  have hcomp : processOne hidePrompt stored r =
      controlStep hidePrompt { r with classes := showClassTransform r.classes }
        (if r.classes.contains "hidden" then [.classRemoved "hidden"] else []) := by
    simp only [processOne, processOneWith]
    rw [hsh]
    rfl
  rw [hcomp]
  refine ⟨controlStep_err_none _ _ _ hch, ?_⟩
  rw [controlStep_classes]

theorem processOne_of_true (hidePrompt : String) (stored : Option (List String))
    (r : ResultElement) (host : String)
    (hsh : shouldHide (getLinkFromResultElement r) stored = .ok true)
    (hpar : parseHostname (getLinkFromResultElement r) = some host) :
    (processOne hidePrompt stored r).2.2 = none ∧
    ((processOne hidePrompt stored r).1).classes = hideClassTransform r.classes := by
  have hch : r.children ≠ [] :=
    children_ne_nil_of_anchors r (anchors_ne_nil_of_parse r host hpar)
  have hcomp : processOne hidePrompt stored r =
      controlStep hidePrompt { r with classes := hideClassTransform r.classes }
        (.markerInserted host ::
          (if r.classes.contains "hidden" then [] else [.classAdded "hidden"])) := by
    simp only [processOne, processOneWith, hideResultW]
    rw [hsh, hpar]
    rfl
  rw [hcomp]
  refine ⟨controlStep_err_none _ _ _ hch, ?_⟩
  rw [controlStep_classes]

theorem processOne_parse_ok (hidePrompt : String) (stored : Option (List String))
    (r : ResultElement) (host : String)
    (hpar : parseHostname (getLinkFromResultElement r) = some host) :
    (processOne hidePrompt stored r).2.2 = none ∧
    ((processOne hidePrompt stored r).1).classes.contains "hidden" =
      storedContains stored host := by
  have hch : r.children ≠ [] :=
    children_ne_nil_of_anchors r (anchors_ne_nil_of_parse r host hpar)
  cases stored with
  | none =>
    obtain ⟨h1, h2⟩ := processOne_of_false hidePrompt none r (shouldHide_none_eq _) hch
    refine ⟨h1, ?_⟩
    rw [h2, showClassTransform, contains_removeClassAll_self]
    rfl
  | some sites =>
    cases sites with
    | nil =>
      obtain ⟨h1, h2⟩ := processOne_of_false hidePrompt (some []) r (shouldHide_nil_eq _) hch
      refine ⟨h1, ?_⟩
      rw [h2, showClassTransform, contains_removeClassAll_self]
      rfl
    | cons s ss =>
      have hsh := shouldHide_cons_of_parse (getLinkFromResultElement r) host s ss hpar
      cases hc : (s :: ss).contains host with
      | false =>
        rw [hc] at hsh
        obtain ⟨h1, h2⟩ := processOne_of_false hidePrompt (some (s :: ss)) r hsh hch
        refine ⟨h1, ?_⟩
        rw [h2, showClassTransform, contains_removeClassAll_self, storedContains, hc]
      | true =>
        rw [hc] at hsh
        obtain ⟨h1, h2⟩ := processOne_of_true hidePrompt (some (s :: ss)) r host hsh hpar
        refine ⟨h1, ?_⟩
        rw [h2, hideClassTransform, contains_addClassOnce_self, storedContains, hc]

/-! ## Stability of a processed element -/

theorem processOne_error_eq (hidePrompt : String) (stored : Option (List String))
    (r r' : ResultElement) (evs : List WriteEvent) (e : JsError)
    (hr : r.classes.contains "hidden" = false)
    (hp_ : processOne hidePrompt stored r = (r', evs, some e)) :
    r' = r ∧ evs = [] := by
  cases hsh : shouldHide (getLinkFromResultElement r) stored with
  | error e' =>
    have hcomp : processOne hidePrompt stored r = (r, [], some e') := by
      simp only [processOne, processOneWith]
      rw [hsh]
    rw [hcomp] at hp_
    simp only [Prod.mk.injEq] at hp_
    exact ⟨hp_.1.symm, hp_.2.1.symm⟩
  | ok hide =>
    cases hide with
    | true =>
      cases hpar : parseHostname (getLinkFromResultElement r) with
      | none =>
        have hcomp : processOne hidePrompt stored r = (r, [], some .urlTypeError) := by
          simp only [processOne, processOneWith, hideResultW]
          rw [hsh, hpar]
          rfl
        rw [hcomp] at hp_
        simp only [Prod.mk.injEq] at hp_
        exact ⟨hp_.1.symm, hp_.2.1.symm⟩
      | some host =>
        obtain ⟨h1, -⟩ := processOne_of_true hidePrompt stored r host hsh hpar
        rw [hp_] at h1
        cases h1
    | false =>
      have hshow : showClassTransform r.classes = r.classes :=
        removeClassAll_of_not_contains _ _ hr
      have hcomp : processOne hidePrompt stored r = controlStep hidePrompt r [] := by
        simp only [processOne, processOneWith]
        rw [hsh]
        simp only [hr, Bool.false_eq_true, if_false, hshow]
      rw [hcomp] at hp_
      cases hlc : lastChildText r with
      | none =>
        have hcomp2 : controlStep hidePrompt r [] = (r, [], some .nullDeref) := by
          unfold controlStep
          rw [hlc]
        rw [hcomp2] at hp_
        simp only [Prod.mk.injEq] at hp_
        exact ⟨hp_.1.symm, hp_.2.1.symm⟩
      | some t =>
        have hch : r.children ≠ [] := children_ne_nil_of_lastChildText r t hlc
        have h22 := controlStep_err_none hidePrompt r [] hch
        rw [hp_] at h22
        cases h22

theorem processOne_ok_stable (hidePrompt : String) (stored : Option (List String))
    (r r' : ResultElement) (evs : List WriteEvent)
    (hr : r.classes.contains "hidden" = false)
    (hp_ : processOne hidePrompt stored r = (r', evs, none)) :
    r'.classes.contains "hidden" = true ∨
      processOne hidePrompt stored r' = (r', [], none) := by
  cases hsh : shouldHide (getLinkFromResultElement r) stored with
  | error e' =>
    have hcomp : processOne hidePrompt stored r = (r, [], some e') := by
      simp only [processOne, processOneWith]
      rw [hsh]
    rw [hcomp] at hp_
    simp only [Prod.mk.injEq] at hp_
    exact absurd hp_.2.2 (by simp)
  | ok hide =>
    cases hide with
    | true =>
      cases hpar : parseHostname (getLinkFromResultElement r) with
      | none =>
        have hcomp : processOne hidePrompt stored r = (r, [], some .urlTypeError) := by
          simp only [processOne, processOneWith, hideResultW]
          rw [hsh, hpar]
          rfl
        rw [hcomp] at hp_
        simp only [Prod.mk.injEq] at hp_
        exact absurd hp_.2.2 (by simp)
      | some host =>
        left
        obtain ⟨-, h2⟩ := processOne_of_true hidePrompt stored r host hsh hpar
        have : (processOne hidePrompt stored r).1 = r' := by rw [hp_]
        rw [← this, h2, hideClassTransform]
        exact contains_addClassOnce_self _ _
    | false =>
      right
      have hshow : showClassTransform r.classes = r.classes :=
        removeClassAll_of_not_contains _ _ hr
      have hcomp : processOne hidePrompt stored r = controlStep hidePrompt r [] := by
        simp only [processOne, processOneWith]
        rw [hsh]
        simp only [hr, Bool.false_eq_true, if_false, hshow]
      rw [hcomp] at hp_
      cases hlc : lastChildText r with
      | none =>
        have hcomp2 : controlStep hidePrompt r [] = (r, [], some .nullDeref) := by
          unfold controlStep
          rw [hlc]
        rw [hcomp2] at hp_
        simp only [Prod.mk.injEq] at hp_
        exact absurd hp_.2.2 (by simp)
      | some t =>
        by_cases hteq : (t == some hidePrompt) = true
        · -- control already present: the step returned r unchanged
          have hcomp2 : controlStep hidePrompt r [] = (r, [], none) := by
            unfold controlStep
            rw [hlc]
            simp only [hteq, if_true]
          rw [hcomp2] at hp_
          simp only [Prod.mk.injEq] at hp_
          obtain ⟨he1, he2, -⟩ := hp_
          subst he1
          rw [hcomp, hcomp2]
        · -- control appended (or the link was empty and nothing happened)
          by_cases hlen : ((getLinkFromResultElement r).length == 0) = true
          · -- empty link: addLinkW is a no-op
            have haddW : addLinkW hidePrompt r = (r, []) := by
              simp only [addLinkW, hlen, if_true]
            have hcomp2 : controlStep hidePrompt r [] = (r, [], none) := by
              unfold controlStep
              rw [hlc]
              simp only [hteq, if_false, haddW]
              rfl
            rw [hcomp2] at hp_
            simp only [Prod.mk.injEq] at hp_
            obtain ⟨he1, he2, -⟩ := hp_
            subst he1
            rw [hcomp, hcomp2]
          · -- non-empty link: the control anchor is appended
            have hanil : anchorsOf r ≠ [] := by
              apply anchors_ne_nil_of_link_ne_empty
              intro hemp
              rw [hemp] at hlen
              exact hlen rfl
            set ctrl : Anchor :=
              ⟨"javascript:;", hidePrompt, some "hide-result-link",
                some (getLinkFromResultElement r)⟩ with hctrl
            have haddW : addLinkW hidePrompt r =
                (⟨r.classes, r.children ++ [.anchor ctrl]⟩, 
                 [.controlAppended (getLinkFromResultElement r)]) := by
              simp only [addLinkW, hlen, if_false]
              rfl
            have hcomp2 : controlStep hidePrompt r [] =
                (⟨r.classes, r.children ++ [.anchor ctrl]⟩,
                 [.controlAppended (getLinkFromResultElement r)], none) := by
              unfold controlStep
              rw [hlc]
              simp only [hteq, if_false, haddW]
              rfl
            rw [hcomp2] at hp_
            simp only [Prod.mk.injEq] at hp_
            obtain ⟨he1, he2, -⟩ := hp_
            -- now compute processOne on the appended element
            set r2 : ResultElement := ⟨r.classes, r.children ++ [.anchor ctrl]⟩ with hr2
            have hlink2 : getLinkFromResultElement r2 = getLinkFromResultElement r := by
              rw [hr2]
              exact getLink_append_anchor r ctrl hanil
            have hsh2 : shouldHide (getLinkFromResultElement r2) stored = .ok false := by
              rw [hlink2, hsh]
            have hshow2 : showClassTransform r2.classes = r2.classes := by
              rw [hr2]
              exact hshow
            have hr2c : r2.classes.contains "hidden" = false := hr
            have hcomp3 : processOne hidePrompt stored r2 = controlStep hidePrompt r2 [] := by
              simp only [processOne, processOneWith]
              rw [hsh2]
              simp only [hr2c, Bool.false_eq_true, if_false, hshow2]
            have hlc2 : lastChildText r2 = some (some hidePrompt) := by
              rw [hr2]
              exact lastChildText_mk_concat_anchor r.classes r.children ctrl
            have hcomp4 : controlStep hidePrompt r2 [] = (r2, [], none) := by
              unfold controlStep
              rw [hlc2]
              simp
            rw [← he1, hcomp3, hcomp4]

/-! ## Whole-pass lemmas -/

theorem reconcilePageWith_cons_hidden
    (sh : String → Option (List String) → JsResult Bool) (hidePrompt : String)
    (stored : Option (List String)) (r : ResultElement) (rs : List ResultElement)
    (h : r.classes.contains "hidden" = true) :
    reconcilePageWith sh hidePrompt stored (r :: rs) =
      (r :: (reconcilePageWith sh hidePrompt stored rs).1,
       (reconcilePageWith sh hidePrompt stored rs).2.1,
       (reconcilePageWith sh hidePrompt stored rs).2.2) := by
  rcases hrec : reconcilePageWith sh hidePrompt stored rs with ⟨rs', evs, err⟩
  simp only [reconcilePageWith]
  rw [h, hrec]
  rfl

theorem reconcilePageWith_cons_err
    (sh : String → Option (List String) → JsResult Bool) (hidePrompt : String)
    (stored : Option (List String)) (r r' : ResultElement)
    (rs : List ResultElement) (evs : List WriteEvent) (e : JsError)
    (h : r.classes.contains "hidden" = false)
    (hpo : processOneWith sh hidePrompt stored r = (r', evs, some e)) :
    reconcilePageWith sh hidePrompt stored (r :: rs) = (r' :: rs, evs, some e) := by
  simp only [reconcilePageWith]
  rw [h, hpo]
  rfl

theorem reconcilePageWith_cons_ok
    (sh : String → Option (List String) → JsResult Bool) (hidePrompt : String)
    (stored : Option (List String)) (r r' : ResultElement)
    (rs : List ResultElement) (evs : List WriteEvent)
    (h : r.classes.contains "hidden" = false)
    (hpo : processOneWith sh hidePrompt stored r = (r', evs, none)) :
    reconcilePageWith sh hidePrompt stored (r :: rs) =
      (r' :: (reconcilePageWith sh hidePrompt stored rs).1,
       evs ++ (reconcilePageWith sh hidePrompt stored rs).2.1,
       (reconcilePageWith sh hidePrompt stored rs).2.2) := by
  rcases hrec : reconcilePageWith sh hidePrompt stored rs with ⟨rs', evs', err⟩
  simp only [reconcilePageWith]
  rw [h, hpo, hrec]
  rfl

theorem reconcile_map_of_ok (hidePrompt : String) (stored : Option (List String))
    (page : List ResultElement)
    (hok : ∀ r ∈ page, r.classes.contains "hidden" = false →
      (processOne hidePrompt stored r).2.2 = none) :
    (reconcilePage hidePrompt stored page).2.2 = none ∧
    (reconcilePage hidePrompt stored page).1 =
      page.map (fun r =>
        if r.classes.contains "hidden" = true then r
        else (processOne hidePrompt stored r).1) := by
  induction page with
  | nil => exact ⟨rfl, rfl⟩
  | cons r rs ih =>
    obtain ⟨ih1, ih2⟩ := ih (fun x hx hh => hok x (List.mem_cons_of_mem r hx) hh)
    by_cases hr : r.classes.contains "hidden" = true
    · rw [show reconcilePage hidePrompt stored (r :: rs) =
          reconcilePageWith shouldHide hidePrompt stored (r :: rs) from rfl,
        reconcilePageWith_cons_hidden _ _ _ _ _ hr]
      refine ⟨ih1, ?_⟩
      simp only [List.map_cons, hr, if_true]
      exact congrArg _ ih2
    · have hrf : r.classes.contains "hidden" = false := by
        rwa [Bool.not_eq_true] at hr
      rcases hpo : processOne hidePrompt stored r with ⟨r', evs, err⟩
      have herr : err = none := by
        have := hok r (List.mem_cons_self r rs) hrf
        rw [hpo] at this
        exact this
      subst herr
      rw [show reconcilePage hidePrompt stored (r :: rs) =
          reconcilePageWith shouldHide hidePrompt stored (r :: rs) from rfl,
        reconcilePageWith_cons_ok _ _ _ _ _ _ _ hrf hpo]
      refine ⟨ih1, ?_⟩
      simp only [List.map_cons, hrf, Bool.false_eq_true, if_false]
      rw [hpo]
      exact congrArg _ ih2

/-- Running the pass a second time on the page a first pass produced,
with the same stored value, performs zero DOM writes. -/
theorem reconcile_twice_no_writes (hidePrompt : String)
    (stored : Option (List String)) (page : List ResultElement) :
    (reconcilePage hidePrompt stored (reconcilePage hidePrompt stored page).1).2.1 = [] := by
  induction page with
  | nil => rfl
  | cons r rs ih =>
    by_cases hr : r.classes.contains "hidden" = true
    · rw [show reconcilePage hidePrompt stored (r :: rs) =
          reconcilePageWith shouldHide hidePrompt stored (r :: rs) from rfl,
        reconcilePageWith_cons_hidden _ _ _ _ _ hr]
      rw [show (reconcilePage hidePrompt stored
            (r :: (reconcilePageWith shouldHide hidePrompt stored rs).1,
             (reconcilePageWith shouldHide hidePrompt stored rs).2.1,
             (reconcilePageWith shouldHide hidePrompt stored rs).2.2).1) =
          reconcilePageWith shouldHide hidePrompt stored
            (r :: (reconcilePageWith shouldHide hidePrompt stored rs).1) from rfl,
        reconcilePageWith_cons_hidden _ _ _ _ _ hr]
      exact ih
    · have hrf : r.classes.contains "hidden" = false := by
        rwa [Bool.not_eq_true] at hr
      rcases hpo : processOne hidePrompt stored r with ⟨r', evs, err⟩
      cases err with
      | some e =>
        obtain ⟨he1, he2⟩ := processOne_error_eq hidePrompt stored r r' evs e hrf hpo
        subst he1
        subst he2
        rw [show reconcilePage hidePrompt stored (r' :: rs) =
            reconcilePageWith shouldHide hidePrompt stored (r' :: rs) from rfl,
          reconcilePageWith_cons_err _ _ _ _ _ _ _ _ hrf hpo]
        rw [show (reconcilePage hidePrompt stored ((r' :: rs, [], some e) :
              List ResultElement × List WriteEvent × Option JsError).1) =
            reconcilePageWith shouldHide hidePrompt stored (r' :: rs) from rfl,
          reconcilePageWith_cons_err _ _ _ _ _ _ _ _ hrf hpo]
      | none =>
        rw [show reconcilePage hidePrompt stored (r :: rs) =
            reconcilePageWith shouldHide hidePrompt stored (r :: rs) from rfl,
          reconcilePageWith_cons_ok _ _ _ _ _ _ _ hrf hpo]
        rcases processOne_ok_stable hidePrompt stored r r' evs hrf hpo with hhid | hstable
        · rw [show (reconcilePage hidePrompt stored
              (r' :: (reconcilePageWith shouldHide hidePrompt stored rs).1,
               evs ++ (reconcilePageWith shouldHide hidePrompt stored rs).2.1,
               (reconcilePageWith shouldHide hidePrompt stored rs).2.2).1) =
              reconcilePageWith shouldHide hidePrompt stored
                (r' :: (reconcilePageWith shouldHide hidePrompt stored rs).1) from rfl,
            reconcilePageWith_cons_hidden _ _ _ _ _ hhid]
          exact ih
        · by_cases hr2 : r'.classes.contains "hidden" = true
          · rw [show (reconcilePage hidePrompt stored
                (r' :: (reconcilePageWith shouldHide hidePrompt stored rs).1,
                 evs ++ (reconcilePageWith shouldHide hidePrompt stored rs).2.1,
                 (reconcilePageWith shouldHide hidePrompt stored rs).2.2).1) =
                reconcilePageWith shouldHide hidePrompt stored
                  (r' :: (reconcilePageWith shouldHide hidePrompt stored rs).1) from rfl,
              reconcilePageWith_cons_hidden _ _ _ _ _ hr2]
            exact ih
          · have hr2f : r'.classes.contains "hidden" = false := by
              rwa [Bool.not_eq_true] at hr2
            rw [show (reconcilePage hidePrompt stored
                (r' :: (reconcilePageWith shouldHide hidePrompt stored rs).1,
                 evs ++ (reconcilePageWith shouldHide hidePrompt stored rs).2.1,
                 (reconcilePageWith shouldHide hidePrompt stored rs).2.2).1) =
                reconcilePageWith shouldHide hidePrompt stored
                  (r' :: (reconcilePageWith shouldHide hidePrompt stored rs).1) from rfl,
              reconcilePageWith_cons_ok _ _ _ _ _ _ _ hr2f hstable]
            simp only [List.nil_append]
            exact ih

/-! ## Preservation of the unhidden flag across passes -/

theorem processOne_classes_cases (hidePrompt : String)
    (stored : Option (List String)) (r : ResultElement) :
    ((processOne hidePrompt stored r).1).classes = r.classes ∨
    ((processOne hidePrompt stored r).1).classes = showClassTransform r.classes ∨
    ((processOne hidePrompt stored r).1).classes = hideClassTransform r.classes := by
  cases hsh : shouldHide (getLinkFromResultElement r) stored with
  | error e =>
    left
    have hcomp : processOne hidePrompt stored r = (r, [], some e) := by
      simp only [processOne, processOneWith]
      rw [hsh]
    rw [hcomp]
  | ok hide =>
    cases hide with
    | true =>
      cases hpar : parseHostname (getLinkFromResultElement r) with
      | none =>
        left
        have hcomp : processOne hidePrompt stored r = (r, [], some .urlTypeError) := by
          simp only [processOne, processOneWith, hideResultW]
          rw [hsh, hpar]
          rfl
        rw [hcomp]
      | some host =>
        right; right
        have hcomp : processOne hidePrompt stored r =
            controlStep hidePrompt { r with classes := hideClassTransform r.classes }
              (.markerInserted host ::
                (if r.classes.contains "hidden" then [] else [.classAdded "hidden"])) := by
          simp only [processOne, processOneWith, hideResultW]
          rw [hsh, hpar]
          rfl
        rw [hcomp, controlStep_classes]
    | false =>
      right; left
      have hcomp : processOne hidePrompt stored r =
          controlStep hidePrompt { r with classes := showClassTransform r.classes }
            (if r.classes.contains "hidden" then [.classRemoved "hidden"] else []) := by
        simp only [processOne, processOneWith]
        rw [hsh]
        rfl
      rw [hcomp, controlStep_classes]

theorem processOne_preserves_unhidden (hidePrompt : String)
    (stored : Option (List String)) (r : ResultElement)
    (hu : r.classes.contains "unhidden" = true) :
    ((processOne hidePrompt stored r).1).classes.contains "unhidden" = true := by
  rcases processOne_classes_cases hidePrompt stored r with h | h | h <;> rw [h]
  · exact hu
  · rw [showClassTransform, contains_removeClassAll_ne _ _ _ (by decide)]
    exact hu
  · rw [hideClassTransform]
    exact contains_addClassOnce_of_contains _ _ _ hu

theorem reconcilePage_preserves_unhidden (hidePrompt : String)
    (stored : Option (List String)) (page : List ResultElement) (i : Nat)
    (r r' : ResultElement) (h1 : page.get? i = some r)
    (h2 : ((reconcilePage hidePrompt stored page).1).get? i = some r')
    (hu : r.classes.contains "unhidden" = true) :
    r'.classes.contains "unhidden" = true := by
  induction page generalizing i with
  | nil => cases h1
  | cons a rs ih =>
    by_cases ha : a.classes.contains "hidden" = true
    · rw [show reconcilePage hidePrompt stored (a :: rs) =
          reconcilePageWith shouldHide hidePrompt stored (a :: rs) from rfl,
        reconcilePageWith_cons_hidden _ _ _ _ _ ha] at h2
      cases i with
      | zero =>
        simp only [List.get?_cons_zero] at h1 h2
        obtain rfl := Option.some.inj h1
        obtain rfl := Option.some.inj h2
        exact hu
      | succ n =>
        simp only [List.get?_cons_succ] at h1 h2
        exact ih n h1 h2
    · have haf : a.classes.contains "hidden" = false := by
        rwa [Bool.not_eq_true] at ha
      rcases hpo : processOne hidePrompt stored a with ⟨a', evs, err⟩
      cases err with
      | some e =>
        rw [show reconcilePage hidePrompt stored (a :: rs) =
            reconcilePageWith shouldHide hidePrompt stored (a :: rs) from rfl,
          reconcilePageWith_cons_err _ _ _ _ _ _ _ _ haf hpo] at h2
        cases i with
        | zero =>
          simp only [List.get?_cons_zero] at h1 h2
          obtain rfl := Option.some.inj h1
          obtain rfl := Option.some.inj h2
          have := processOne_preserves_unhidden hidePrompt stored a hu
          rw [hpo] at this
          exact this
        | succ n =>
          simp only [List.get?_cons_succ] at h1 h2
          rw [h1] at h2
          obtain rfl := Option.some.inj h2
          exact hu
      | none =>
        rw [show reconcilePage hidePrompt stored (a :: rs) =
            reconcilePageWith shouldHide hidePrompt stored (a :: rs) from rfl,
          reconcilePageWith_cons_ok _ _ _ _ _ _ _ haf hpo] at h2
        cases i with
        | zero =>
          simp only [List.get?_cons_zero] at h1 h2
          obtain rfl := Option.some.inj h1
          obtain rfl := Option.some.inj h2
          have := processOne_preserves_unhidden hidePrompt stored a hu
          rw [hpo] at this
          exact this
        | succ n =>
          simp only [List.get?_cons_succ] at h1 h2
          exact ih n h1 h2

theorem reconcilePage_length (hidePrompt : String)
    (stored : Option (List String)) (page : List ResultElement) :
    ((reconcilePage hidePrompt stored page).1).length = page.length := by
  induction page with
  | nil => rfl
  | cons r rs ih =>
    by_cases hr : r.classes.contains "hidden" = true
    · rw [show reconcilePage hidePrompt stored (r :: rs) =
          reconcilePageWith shouldHide hidePrompt stored (r :: rs) from rfl,
        reconcilePageWith_cons_hidden _ _ _ _ _ hr]
      simp only [List.length_cons]
      show (reconcilePage hidePrompt stored rs).1.length + 1 = rs.length + 1
      rw [ih]
    · have hrf : r.classes.contains "hidden" = false := by
        rwa [Bool.not_eq_true] at hr
      rcases hpo : processOne hidePrompt stored r with ⟨r', evs, err⟩
      cases err with
      | some e =>
        rw [show reconcilePage hidePrompt stored (r :: rs) =
            reconcilePageWith shouldHide hidePrompt stored (r :: rs) from rfl,
          reconcilePageWith_cons_err _ _ _ _ _ _ _ _ hrf hpo]
        rfl
      | none =>
        rw [show reconcilePage hidePrompt stored (r :: rs) =
            reconcilePageWith shouldHide hidePrompt stored (r :: rs) from rfl,
          reconcilePageWith_cons_ok _ _ _ _ _ _ _ hrf hpo]
        simp only [List.length_cons]
        show (reconcilePage hidePrompt stored rs).1.length + 1 = rs.length + 1
        rw [ih]

theorem applyPasses_preserves_unhidden
    (passes : List (String × Option (List String))) (page : List ResultElement)
    (i : Nat) (r r' : ResultElement) (h1 : page.get? i = some r)
    (h2 : (applyPasses passes page).get? i = some r')
    (hu : r.classes.contains "unhidden" = true) :
    r'.classes.contains "unhidden" = true := by
  induction passes generalizing page r with
  | nil =>
    rw [show applyPasses [] page = page from rfl] at h2
    rw [h1] at h2
    obtain rfl := Option.some.inj h2
    exact hu
  | cons ps rest ih =>
    rw [show applyPasses (ps :: rest) page =
        applyPasses rest ((reconcilePage ps.1 ps.2 page).1) from rfl] at h2
    rcases hmid : ((reconcilePage ps.1 ps.2 page).1).get? i with _ | r₁
    · exfalso
      rw [List.get?_eq_none] at hmid
      have hlt : i < page.length := by
        by_contra hge
        rw [not_lt, ← List.get?_eq_none] at hge
        rw [hge] at h1
        cases h1
      have hlen : ((reconcilePage ps.1 ps.2 page).1).length = page.length :=
        reconcilePage_length ps.1 ps.2 page
      omega
    · exact ih ((reconcilePage ps.1 ps.2 page).1) r₁
        (by exact hmid) (by exact h2)
        (reconcilePage_preserves_unhidden ps.1 ps.2 page i r r₁ h1 hmid hu)

/-! ## List helpers for the container model -/

theorem lt_length_of_get?_eq_some {α : Type} (l : List α) (i : Nat) (a : α)
    (h : l.get? i = some a) : i < l.length := by
  by_contra hge
  rw [not_lt, ← List.get?_eq_none] at hge
  rw [hge] at h
  cases h

theorem get_set_self {α : Type} (l : List α) (i : Nat) (x : α)
    (h : i < l.length) : (l.set i x).get? i = some x := by
  induction l generalizing i with
  | nil => cases h
  | cons a l' ih =>
    cases i with
    | zero => rfl
    | succ j => exact ih j (Nat.lt_of_succ_lt_succ h)

theorem get_set_ne {α : Type} (l : List α) (i j : Nat) (x : α)
    (h : j ≠ i) : (l.set i x).get? j = l.get? j := by
  induction l generalizing i j with
  | nil => rfl
  | cons a l' ih =>
    cases i with
    | zero =>
      cases j with
      | zero => exact absurd rfl h
      | succ n => rfl
    | succ m =>
      cases j with
      | zero => rfl
      | succ n => exact ih m n (fun he => h (congrArg Nat.succ he))

theorem length_insertAt (i : Nat) (m : PNode) (l : List PNode) :
    (insertAt i m l).length = l.length + 1 := by
  induction l generalizing i with
  | nil =>
    cases i with
    | zero => rfl
    | succ j => rfl
  | cons a l' ih =>
    cases i with
    | zero => rfl
    | succ j =>
      show (a :: insertAt j m l').length = (a :: l').length + 1
      simp only [List.length_cons]
      rw [ih]

theorem get?_insertAt_self (i : Nat) (m : PNode) (l : List PNode)
    (h : i ≤ l.length) : (insertAt i m l).get? i = some m := by
  induction l generalizing i with
  | nil =>
    cases i with
    | zero => rfl
    | succ j => cases h
  | cons a l' ih =>
    cases i with
    | zero => rfl
    | succ j => exact ih j (Nat.le_of_succ_le_succ h)

theorem get?_insertAt_succ (i : Nat) (m : PNode) (l : List PNode) :
    (insertAt i m l).get? (i + 1) = l.get? i := by
  induction l generalizing i with
  | nil =>
    cases i with
    | zero => rfl
    | succ j => rfl
  | cons a l' ih =>
    cases i with
    | zero => rfl
    | succ j => exact ih j

theorem get?_insertAt_lt (i : Nat) (m : PNode) (l : List PNode) (k : Nat)
    (hk : k < i) (hi : i ≤ l.length) : (insertAt i m l).get? k = l.get? k := by
  induction l generalizing i k with
  | nil =>
    cases i with
    | zero => cases hk
    | succ j => cases hi
  | cons a l' ih =>
    cases i with
    | zero => cases hk
    | succ j =>
      cases k with
      | zero => rfl
      | succ n => exact ih j n (Nat.lt_of_succ_lt_succ hk) (Nat.le_of_succ_le_succ hi)

theorem insertAt_set_succ_eraseIdx (l : List PNode) (i : Nat) (m x : PNode)
    (h : i < l.length) :
    ((insertAt i m l).set (i + 1) x).eraseIdx i = l.set i x := by
  induction l generalizing i with
  | nil => cases h
  | cons a l' ih =>
    cases i with
    | zero => rfl
    | succ j =>
      show (a :: ((insertAt j m l').set (j + 1) x)).eraseIdx (j + 1) = a :: l'.set j x
      simp only [List.eraseIdx_cons_succ]
      rw [ih j (Nat.lt_of_succ_lt_succ h)]

theorem firstResClassIdx_eq_of (rc : String) (l : List PNode) (i : Nat)
    (n : PNode) (hi : l.get? i = some n)
    (hm : matchesClassNames rc n.pclasses = true)
    (hpre : ∀ k m', k < i → l.get? k = some m' →
      matchesClassNames rc m'.pclasses = false) :
    firstResClassIdx rc l = some i := by
  induction l generalizing i with
  | nil => cases hi
  | cons a l' ih =>
    cases i with
    | zero =>
      simp only [List.get?_cons_zero] at hi
      obtain rfl := Option.some.inj hi
      unfold firstResClassIdx
      rw [hm]
      rfl
    | succ j =>
      have ha : matchesClassNames rc a.pclasses = false :=
        hpre 0 a (Nat.succ_pos j) rfl
      simp only [List.get?_cons_succ] at hi
      unfold firstResClassIdx
      rw [ha]
      rw [ih j hi (fun k m' hk hget => hpre (k + 1) m' (Nat.succ_lt_succ hk) hget)]
      rfl

theorem matchesClassNames_addClassOnce (rc : String) (cs : List String)
    (c : String) (h : matchesClassNames rc cs = true) :
    matchesClassNames rc (addClassOnce cs c) = true := by
  unfold matchesClassNames at h ⊢
  rw [Bool.and_eq_true] at h ⊢
  refine ⟨h.1, ?_⟩
  rw [List.all_eq_true] at h ⊢
  intro t ht
  exact contains_addClassOnce_of_contains cs c t (h.2 t ht)

/-! ## Hide / unhide round trip -/

/-- The result element after a hide/unhide round trip: visible again,
same children (same link, control still present), but carrying the extra
`unhidden` class. -/
def addUnhidden (r : ResultElement) : ResultElement :=
  { r with classes := addClassOnce r.classes "unhidden" }

/-- The condition under which part_000's inverse lookup
(`getResultFromHideLink`) actually finds the result `hideResult` just
hid: for the next-sibling strategy (Bing, Yahoo) the marker must end up
immediately before the result — automatic under `InsertBefore`, but
under `Prepend` only when the result is its parent's first child; for
the class-lookup strategy the result must be the first result-class
element of its parent, which the marker must not match. -/
def lookupConsistent (p : ProviderDesc) (nodes : List PNode) (i : Nat)
    (r : ResultElement) : Prop :=
  if (p.name == "Bing" || p.name == "Yahoo") = true then
    p.placement = .insertBefore ∨ i = 0
  else
    matchesClassNames p.resultClass ["result-hidden"] = false ∧
    matchesClassNames p.resultClass r.classes = true ∧
    ∀ k n, k < i → nodes.get? k = some n →
      matchesClassNames p.resultClass n.pclasses = false

theorem hideResultC_comp (p : ProviderDesc) (nodes : List PNode) (i : Nat)
    (r : ResultElement) (host : String) (hi : nodes.get? i = some (.res r))
    (hpar : parseHostname (getLinkFromResultElement r) = some host) :
    hideResultC p nodes i = some (match p.placement with
      | .insertBefore => insertAt i (.marker host ["result-hidden"])
          (nodes.set i (.res { r with classes := hideClassTransform r.classes }))
      | .prepend => .marker host ["result-hidden"] ::
          nodes.set i (.res { r with classes := hideClassTransform r.classes })) := by
  simp only [hideResultC, hi, hpar]

theorem unhideResultC_comp (p : ProviderDesc) (nodes : List PNode)
    (j k : Nat) (host : String) (mcs : List String) (target : PNode)
    (hj : nodes.get? j = some (.marker host mcs))
    (hlk : getResultFromHideLinkC p nodes j = some k)
    (hk : nodes.get? k = some target) :
    unhideResultC p nodes j = some
      ((nodes.set k (target.withClasses (unhideClassTransform target.pclasses))).eraseIdx j) := by
  simp only [unhideResultC, hj, hlk, hk]

theorem getResultFromHideLinkC_sibling (p : ProviderDesc) (nodes : List PNode)
    (j : Nat) (hb : (p.name == "Bing" || p.name == "Yahoo") = true)
    (h : j + 1 < nodes.length) :
    getResultFromHideLinkC p nodes j = some (j + 1) := by
  simp only [getResultFromHideLinkC, hb, if_pos h]
  rfl

theorem getResultFromHideLinkC_classLookup (p : ProviderDesc)
    (nodes : List PNode) (j : Nat)
    (hb : (p.name == "Bing" || p.name == "Yahoo") = false) :
    getResultFromHideLinkC p nodes j = firstResClassIdx p.resultClass nodes := by
  simp only [getResultFromHideLinkC, hb]
  rfl

theorem unhide_hide_classes (cs : List String)
    (h : cs.contains "hidden" = false) :
    unhideClassTransform (hideClassTransform cs) = addClassOnce cs "unhidden" := by
  unfold unhideClassTransform hideClassTransform
  rw [removeClassAll_addClassOnce_self cs "hidden" h]

/-- **C7** (corrected).  Hiding a result with a non-empty, parseable
link and then triggering the marker's unhide control restores the
result: same position, same children (same link, any hide-control still
present), no marker left, visible again — but carrying an extra
`unhidden` class — provided the provider's inverse lookup actually
finds the result (`lookupConsistent`): automatic for the next-sibling
strategy under `InsertBefore`, but under the `Prepend` placement that
part_000 gives Bing and Yahoo only when the result is its parent's
first child, and for the class-lookup strategy only when the result is
the first result-class element of its parent.  Without that proviso the
round trip fails (see the counterexample). -/
theorem hideThenUnhide_roundTrip (p : ProviderDesc) (nodes : List PNode)
    (i : Nat) (r : ResultElement) (host : String)
    (hi : nodes.get? i = some (.res r))
    (hhid : r.classes.contains "hidden" = false)
    (hpar : parseHostname (getLinkFromResultElement r) = some host)
    (hcons : lookupConsistent p nodes i r) :
    hideThenUnhide p nodes i = some (nodes.set i (.res (addUnhidden r))) := by
  have hlen : i < nodes.length := lt_length_of_get?_eq_some nodes i _ hi
  have hfinal : unhideClassTransform
      (PNode.res { r with classes := hideClassTransform r.classes }).pclasses =
      (addUnhidden r).classes := by
    show unhideClassTransform (hideClassTransform r.classes) =
      addClassOnce r.classes "unhidden"
    exact unhide_hide_classes r.classes hhid
  have hhc := hideResultC_comp p nodes i r host hi hpar
  cases hpl : p.placement with
  | prepend =>
    rw [hpl] at hhc
    unfold hideThenUnhide
    rw [hhc, hpl]
    dsimp only
    by_cases hb : (p.name == "Bing" || p.name == "Yahoo") = true
    · -- next-sibling lookup: consistency forces i = 0
      unfold lookupConsistent at hcons
      rw [if_pos hb] at hcons
      have hi0 : i = 0 := by
        rcases hcons with hpl' | hi0
        · rw [hpl'] at hpl
          cases hpl
        · exact hi0
      subst hi0
      cases nodes with
      | nil => cases hi
      | cons a tl =>
        simp only [List.get?_cons_zero] at hi
        obtain rfl := Option.some.inj hi
        have hlk : getResultFromHideLinkC p
            (.marker host ["result-hidden"] ::
              ((PNode.res r :: tl).set 0
                (.res { r with classes := hideClassTransform r.classes}))) 0 =
            some 1 := by
          apply getResultFromHideLinkC_sibling p _ 0 hb
          simp [List.length_set]
        rw [unhideResultC_comp p _ 0 1 host ["result-hidden"]
          (.res { r with classes := hideClassTransform r.classes}) (by rfl) hlk (by rfl)]
        rw [hfinal]
        rfl
    · -- class lookup
      have hbf : (p.name == "Bing" || p.name == "Yahoo") = false := by
        rwa [Bool.not_eq_true] at hb
      unfold lookupConsistent at hcons
      rw [if_neg (by rw [hbf]; exact Bool.false_ne_true)] at hcons
      obtain ⟨hm, hmr, hpre⟩ := hcons
      have hfind : firstResClassIdx p.resultClass
          (.marker host ["result-hidden"] ::
            (nodes.set i (.res { r with classes := hideClassTransform r.classes}))) =
          some (i + 1) := by
        apply firstResClassIdx_eq_of p.resultClass _ (i + 1)
          (.res { r with classes := hideClassTransform r.classes})
        · show (nodes.set i (.res { r with classes := hideClassTransform r.classes})).get? i =
            some (.res { r with classes := hideClassTransform r.classes})
          exact get_set_self nodes i _ hlen
        · exact matchesClassNames_addClassOnce _ _ _ hmr
        · intro k m' hk hget
          cases k with
          | zero =>
            simp only [List.get?_cons_zero] at hget
            obtain rfl := Option.some.inj hget
            exact hm
          | succ n =>
            simp only [List.get?_cons_succ] at hget
            have hn : n < i := Nat.lt_of_succ_lt_succ hk
            rw [get_set_ne nodes i n _ (Nat.ne_of_lt hn)] at hget
            exact hpre n m' hn hget
      have hlk : getResultFromHideLinkC p
          (.marker host ["result-hidden"] ::
            (nodes.set i (.res { r with classes := hideClassTransform r.classes}))) 0 =
          some (i + 1) := by
        rw [getResultFromHideLinkC_classLookup p _ 0 hbf, hfind]
      have htgt : (PNode.marker host ["result-hidden"] ::
          (nodes.set i (.res { r with classes := hideClassTransform r.classes}))).get? (i + 1) =
          some (.res { r with classes := hideClassTransform r.classes}) := by
        simp only [List.get?_cons_succ]
        exact get_set_self nodes i _ hlen
      rw [unhideResultC_comp p _ 0 (i + 1) host ["result-hidden"]
        (.res { r with classes := hideClassTransform r.classes}) (by rfl) hlk htgt]
      rw [hfinal]
      show some ((nodes.set i (.res { r with classes := hideClassTransform r.classes})).set i
        (.res (addUnhidden r))) = some (nodes.set i (.res (addUnhidden r)))
      rw [List.set_set]
  | insertBefore =>
    rw [hpl] at hhc
    unfold hideThenUnhide
    rw [hhc, hpl]
    dsimp only
    have hlen1 : i < (nodes.set i
        (.res { r with classes := hideClassTransform r.classes})).length := by
      rw [List.length_set]
      exact hlen
    have hj : (insertAt i (.marker host ["result-hidden"])
        (nodes.set i (.res { r with classes := hideClassTransform r.classes}))).get? i =
        some (.marker host ["result-hidden"]) :=
      get?_insertAt_self i _ _ (Nat.le_of_lt hlen1)
    have htgt : (insertAt i (.marker host ["result-hidden"])
        (nodes.set i (.res { r with classes := hideClassTransform r.classes}))).get? (i + 1) =
        some (.res { r with classes := hideClassTransform r.classes}) := by
      rw [get?_insertAt_succ]
      exact get_set_self nodes i _ hlen
    by_cases hb : (p.name == "Bing" || p.name == "Yahoo") = true
    · have hlk : getResultFromHideLinkC p
          (insertAt i (.marker host ["result-hidden"])
            (nodes.set i (.res { r with classes := hideClassTransform r.classes}))) i =
          some (i + 1) := by
        apply getResultFromHideLinkC_sibling p _ i hb
        rw [length_insertAt]
        exact Nat.succ_lt_succ hlen1
      rw [unhideResultC_comp p _ i (i + 1) host ["result-hidden"]
        (.res { r with classes := hideClassTransform r.classes}) hj hlk htgt]
      rw [hfinal]
      rw [show (PNode.res { r with classes := hideClassTransform r.classes}).withClasses
          (addUnhidden r).classes = .res (addUnhidden r) from rfl]
      rw [insertAt_set_succ_eraseIdx _ i _ _ hlen1]
      rw [List.set_set]
    · have hbf : (p.name == "Bing" || p.name == "Yahoo") = false := by
        rwa [Bool.not_eq_true] at hb
      unfold lookupConsistent at hcons
      rw [if_neg (by rw [hbf]; exact Bool.false_ne_true)] at hcons
      obtain ⟨hm, hmr, hpre⟩ := hcons
      have hfind : firstResClassIdx p.resultClass
          (insertAt i (.marker host ["result-hidden"])
            (nodes.set i (.res { r with classes := hideClassTransform r.classes}))) =
          some (i + 1) := by
        apply firstResClassIdx_eq_of p.resultClass _ (i + 1)
          (.res { r with classes := hideClassTransform r.classes}) htgt
        · exact matchesClassNames_addClassOnce _ _ _ hmr
        · intro k m' hk hget
          by_cases hki : k < i
          · rw [get?_insertAt_lt i _ _ k hki (Nat.le_of_lt hlen1)] at hget
            rw [get_set_ne nodes i k _ (Nat.ne_of_lt hki)] at hget
            exact hpre k m' hki hget
          · have hkeq : k = i := by omega
            subst hkeq
            rw [hj] at hget
            obtain rfl := Option.some.inj hget
            exact hm
      have hlk : getResultFromHideLinkC p
          (insertAt i (.marker host ["result-hidden"])
            (nodes.set i (.res { r with classes := hideClassTransform r.classes}))) i =
          some (i + 1) := by
        rw [getResultFromHideLinkC_classLookup p _ i hbf, hfind]
      rw [unhideResultC_comp p _ i (i + 1) host ["result-hidden"]
        (.res { r with classes := hideClassTransform r.classes}) hj hlk htgt]
      rw [hfinal]
      rw [show (PNode.res { r with classes := hideClassTransform r.classes}).withClasses
          (addUnhidden r).classes = .res (addUnhidden r) from rfl]
      rw [insertAt_set_succ_eraseIdx _ i _ _ hlen1]
      rw [List.set_set]

/-! ## Claim theorems -/

/-- **C1** (corrected).  Provided every enumerated (not-already-hidden)
result's extracted link parses as a URL, a reconciliation pass completes
without error and leaves each such result marked hidden exactly when its
link's hostname is a member of the stored hidden set read at the start
of the pass (an absent value having no members).  Without the proviso
the claim fails: an unparseable (e.g. empty) link aborts the pass and
later results keep their previous state (see the counterexample). -/
theorem c1_hidden_iff_member (hidePrompt : String)
    (stored : Option (List String)) (page : List ResultElement)
    (hall : ∀ r ∈ page, r.classes.contains "hidden" = false →
      (parseHostname (getLinkFromResultElement r)).isSome = true) :
    (reconcilePage hidePrompt stored page).2.2 = none ∧
    ∀ i r host, page.get? i = some r → r.classes.contains "hidden" = false →
      parseHostname (getLinkFromResultElement r) = some host →
      ∃ r', ((reconcilePage hidePrompt stored page).1).get? i = some r' ∧
        r'.classes.contains "hidden" = storedContains stored host := by
  have hok : ∀ r ∈ page, r.classes.contains "hidden" = false →
      (processOne hidePrompt stored r).2.2 = none := by
    intro r hr hh
    have hs := hall r hr hh
    rw [Option.isSome_iff_exists] at hs
    obtain ⟨host, hhost⟩ := hs
    exact (processOne_parse_ok hidePrompt stored r host hhost).1
  obtain ⟨herr, hmap⟩ := reconcile_map_of_ok hidePrompt stored page hok
  refine ⟨herr, ?_⟩
  intro i r host hi hh hhost
  refine ⟨(if r.classes.contains "hidden" = true then r
    else (processOne hidePrompt stored r).1), ?_, ?_⟩
  · rw [hmap, List.get?_map, hi]
    rfl
  · rw [if_neg (by rw [hh]; exact Bool.false_ne_true)]
    exact (processOne_parse_ok hidePrompt stored r host hhost).2

/-- **C1** witness: a one-result page whose link parses; with stored set
`["a.com"]` the pass hides it. -/
theorem c1_hidden_iff_member_witness :
    (∀ r ∈ ([⟨["b_algo"], [.anchor ⟨"https://a.com/x", "A", none, none⟩]⟩] :
        List ResultElement), r.classes.contains "hidden" = false →
      (parseHostname (getLinkFromResultElement r)).isSome = true) ∧
    ((reconcilePage "HP" (some ["a.com"])
        [⟨["b_algo"], [.anchor ⟨"https://a.com/x", "A", none, none⟩]⟩]).2.2 = none ∧
    ∀ i r host,
      ([⟨["b_algo"], [.anchor ⟨"https://a.com/x", "A", none, none⟩]⟩] :
        List ResultElement).get? i = some r →
      r.classes.contains "hidden" = false →
      parseHostname (getLinkFromResultElement r) = some host →
      ∃ r', ((reconcilePage "HP" (some ["a.com"])
          [⟨["b_algo"], [.anchor ⟨"https://a.com/x", "A", none, none⟩]⟩]).1).get? i =
          some r' ∧
        r'.classes.contains "hidden" = storedContains (some ["a.com"]) host) :=
  ⟨by decide, c1_hidden_iff_member "HP" (some ["a.com"]) _ (by decide)⟩

/-- **C1** counterexample: with stored set `["a.com"]`, a page whose
first result has no anchors (empty link) aborts the pass, and the second
result — enumerated, link hostname `a.com`, a member of the set — is
left unhidden. -/
theorem c1_counterexample :
    (reconcilePage "HP" (some ["a.com"])
        [⟨["b_algo"], []⟩,
         ⟨["b_algo"], [.anchor ⟨"https://a.com/x", "A", none, none⟩]⟩]).1 =
      [⟨["b_algo"], []⟩,
       ⟨["b_algo"], [.anchor ⟨"https://a.com/x", "A", none, none⟩]⟩] ∧
    parseHostname (getLinkFromResultElement
      ⟨["b_algo"], [.anchor ⟨"https://a.com/x", "A", none, none⟩]⟩) = some "a.com" ∧
    (["a.com"] : List String).contains "a.com" = true ∧
    (⟨["b_algo"], [.anchor ⟨"https://a.com/x", "A", none, none⟩]⟩ :
      ResultElement).classes.contains "hidden" = false := by decide

/-- **C2** (code_bug).  The spec requires an empty extracted link to be a
silent no-op for every hidden set, and `addLink` indeed guards it — but
`shouldHide` does not: with a non-empty hidden set it calls
`new URL("")`, which throws, aborting the pass.  The last conjunct shows
the claimed behaviour does hold when the stored value is absent. -/
theorem c2_empty_link_raises :
    getLinkFromResultElement ⟨["b_algo"], []⟩ = "" ∧
    shouldHide "" (some ["example.com"]) = .error .urlTypeError ∧
    (reconcilePage "HP" (some ["example.com"]) [⟨["b_algo"], []⟩]).2.2 =
      some .urlTypeError ∧
    reconcilePage "HP" none [⟨["b_algo"], [.wrapped []]⟩] =
      ([⟨["b_algo"], [.wrapped []]⟩], [], none) := by decide

/-- **C3** counterexample: the content.js variant's `shouldHide`
dereferences the absent stored value (`undefined.includes`), so a
reconciliation pass of that variant over a page with one parseable
result aborts with a `TypeError` instead of treating the absent value as
the empty set. -/
theorem c3_counterexample :
    shouldHideContentJs "https://a.com/x" none = .error .undefinedDeref ∧
    (reconcilePageContentJs "HP" none
        [⟨["b_algo"], [.anchor ⟨"https://a.com/x", "A", none, none⟩]⟩]).2.2 =
      some .undefinedDeref := by decide

/-- **C3** (corrected).  In the part_000 variant an absent
`hidden_sites` value is treated as the empty set: provided each
enumerated result has at least one child node, the pass completes
without error, and every result's hidden flag is unchanged (in
particular nothing is hidden). -/
theorem c3_absent_treated_empty (hidePrompt : String)
    (page : List ResultElement)
    (hch : ∀ r ∈ page, r.classes.contains "hidden" = false →
      r.children ≠ []) :
    (reconcilePage hidePrompt none page).2.2 = none ∧
    ∀ i r, page.get? i = some r →
      ∃ r', ((reconcilePage hidePrompt none page).1).get? i = some r' ∧
        r'.classes.contains "hidden" = r.classes.contains "hidden" := by
  have hok : ∀ r ∈ page, r.classes.contains "hidden" = false →
      (processOne hidePrompt none r).2.2 = none := by
    intro r hr hh
    exact (processOne_of_false hidePrompt none r (shouldHide_none_eq _) (hch r hr hh)).1
  obtain ⟨herr, hmap⟩ := reconcile_map_of_ok hidePrompt none page hok
  refine ⟨herr, ?_⟩
  intro i r hi
  refine ⟨(if r.classes.contains "hidden" = true then r
    else (processOne hidePrompt none r).1), ?_, ?_⟩
  · rw [hmap, List.get?_map, hi]
    rfl
  · by_cases hh : r.classes.contains "hidden" = true
    · rw [if_pos hh]
    · have hhf : r.classes.contains "hidden" = false := by
        rwa [Bool.not_eq_true] at hh
      rw [if_neg hh, hhf]
      have := (processOne_of_false hidePrompt none r (shouldHide_none_eq _)
        (hch r (List.get?_mem hi) hhf)).2
      rw [this, showClassTransform, contains_removeClassAll_self]

/-- **C3** witness: a one-result page with a parseable link; with the
stored value absent, the pass runs without error and hides nothing. -/
theorem c3_absent_treated_empty_witness :
    (∀ r ∈ ([⟨["b_algo"], [.anchor ⟨"https://a.com/x", "A", none, none⟩]⟩] :
        List ResultElement), r.classes.contains "hidden" = false →
      r.children ≠ []) ∧
    ((reconcilePage "HP" none
        [⟨["b_algo"], [.anchor ⟨"https://a.com/x", "A", none, none⟩]⟩]).2.2 = none ∧
    ∀ i r,
      ([⟨["b_algo"], [.anchor ⟨"https://a.com/x", "A", none, none⟩]⟩] :
        List ResultElement).get? i = some r →
      ∃ r', ((reconcilePage "HP" none
          [⟨["b_algo"], [.anchor ⟨"https://a.com/x", "A", none, none⟩]⟩]).1).get? i =
          some r' ∧
        r'.classes.contains "hidden" = r.classes.contains "hidden") :=
  ⟨by decide, c3_absent_treated_empty "HP" _ (by decide)⟩

theorem matchesClassNames_empty_str (cs : List String) :
    matchesClassNames "" cs = false := rfl

theorem getResultElements_empty_class (doc : DomNode) :
    getResultElements "" doc = [] := by
  unfold getResultElements getElementsByClassName
  have hinner : (allNodes doc).filter
      (fun n => matchesClassNames "" n.classesOf) = [] := by
    rw [List.filter_eq_nil_iff]
    intro a ha
    rw [matchesClassNames_empty_str]
    simp
  rw [hinner]
  rfl

theorem waitForElementsSeq_empty_class (doms : Nat → DomNode) (fuel : Nat) :
    waitForElementsSeq "" doms fuel = none := by
  induction fuel generalizing doms with
  | zero => rfl
  | succ n ih =>
    simp only [waitForElementsSeq, getResultElements_empty_class,
      List.isEmpty_nil, if_true]
    exact ih _

/-- **C4** (corrected, amended part).  For the `Provider` class shared by
every provider of part_000 (and content.js's base class),
`getResultElements` returns exactly the elements carrying every token of
the provider's result class and not already marked hidden, in document
(preorder) order; being a pure function of the document, it reads
nothing else and re-evaluates identically on the same document.  (The
Yahoo override in content.js violates this — see the counterexample.) -/
theorem c4_enumerate_characterization (resultClass : String) (doc : DomNode) :
    getResultElements resultClass doc =
      (allNodes doc).filter (fun n =>
        matchesClassNames resultClass n.classesOf &&
          !(n.classesOf.contains "hidden")) := by
  unfold getResultElements getElementsByClassName
  rw [List.filter_filter]
  apply List.filter_congr
  intro n _
  exact Bool.and_comm _ _

/-- **C4** counterexample: content.js's Yahoo override maps each
`div.algo-sr` to its `parentElement` with no hidden-filter: on a
document whose `algo-sr` div sits inside a parent marked `hidden`,
enumeration returns that parent — an element that is already hidden and
does not even carry the result class. -/
theorem c4_counterexample :
    yahooGetResultElements
        (.el "body" [] [.el "div" ["hidden"] [.el "div" ["algo-sr"] []]]) =
      [some (.el "div" ["hidden"] [.el "div" ["algo-sr"] []])] ∧
    (["hidden"] : List String).contains "hidden" = true ∧
    matchesClassNames "algo-sr" ["hidden"] = false :=
  ⟨rfl, by decide, by decide⟩

/-- **C5** (confirmed).  Provider selection is a pure function of the
hostname equal to a first-match scan of the fixed ordered
substring/prefix table; every hostname matching no pattern gets the
Unknown descriptor with an empty result selector, under which
enumeration returns the empty sequence on every document and the
reconciler's wait loop never returns for any fuel and any sequence of
document states — so the apply phase, the only DOM-mutating part, is
never reached. -/
theorem c5_provider_selection (h : String) :
    searchProvider h = firstMatch providerTable h ∧
    ((∀ pr ∈ providerTable, matchesPattern pr.1 h = false) →
      searchProvider h = unknownProvider ∧
      (∀ doc, getResultElements (searchProvider h).resultClass doc = []) ∧
      (∀ doms fuel,
        waitForElementsSeq (searchProvider h).resultClass doms fuel = none)) := by
  refine ⟨rfl, ?_⟩
  intro hnm
  have h1 := hnm (.hostPre "duckduckgo.",
    ⟨"Duck Duck Go", "result__body links_main", .prepend⟩) (by simp [providerTable])
  have h2 := hnm (.hostSub ".bing.", ⟨"Bing", "b_algo", .prepend⟩)
    (by simp [providerTable])
  have h3 := hnm (.hostSub ".google.", ⟨"Google", "rc", .prepend⟩)
    (by simp [providerTable])
  have h4 := hnm (.hostSub "search.yahoo.com", ⟨"Yahoo", "algo-sr", .prepend⟩)
    (by simp [providerTable])
  have h5 := hnm (.hostSub ".ask.com", ⟨"Ask.com", "PartialSearchResults-item", .prepend⟩)
    (by simp [providerTable])
  have h6 := hnm (.hostSub "yandex.ru", ⟨"Yandex", "serp-item", .prepend⟩)
    (by simp [providerTable])
  have h7 := hnm (.hostSub "searchencrypt.com", ⟨"SearchEncrypt", "web-result", .prepend⟩)
    (by simp [providerTable])
  simp only [matchesPattern] at h1 h2 h3 h4 h5 h6 h7
  have hu : searchProvider h = unknownProvider := by
    unfold searchProvider
    rw [h1, h2, h3, h4, h5, h6, h7]
    rfl
  refine ⟨hu, ?_, ?_⟩
  · intro doc
    rw [hu]
    exact getResultElements_empty_class doc
  · intro doms fuel
    rw [hu]
    exact waitForElementsSeq_empty_class doms fuel

/-- **C5** witness: `example.org` matches no pattern of the table; the
Unknown descriptor is selected and enumeration yields nothing. -/
theorem c5_provider_selection_witness :
    (∀ pr ∈ providerTable, matchesPattern pr.1 "example.org" = false) ∧
    (searchProvider "example.org" = firstMatch providerTable "example.org" ∧
     (searchProvider "example.org" = unknownProvider ∧
      (∀ doc, getResultElements (searchProvider "example.org").resultClass doc = []) ∧
      (∀ doms fuel, waitForElementsSeq (searchProvider "example.org").resultClass
        doms fuel = none))) :=
  ⟨by decide,
   (c5_provider_selection "example.org").1,
   (c5_provider_selection "example.org").2 (by decide)⟩

/-- **C9** counterexample: the `MutationObserver` callback (part_000
lines 241–246) invokes `processSearchPage()` without disconnecting the
observer, so the reconciliation pass it triggers performs its DOM writes
— here the marker insertion for `a.com` — while the observer is still
connected, contradicting the claimed suspension. -/
theorem c9_counterexample :
    (true, ObsStep.write (.markerInserted "a.com")) ∈
      traceWith true (observerCallbackSteps
        (reconcilePage "HP" (some ["a.com"])
          [⟨["b_algo"], [.anchor ⟨"https://a.com/x", "A", none, none⟩]⟩]).2.1) := by
  decide

/-- **C9** (corrected).  Around the unhide action the watcher is
disconnected before the DOM mutations and reattached afterwards — the
unhide handler's trace starts with the disconnect, performs every write
while disconnected, and ends with the reconnect.  But a reconciliation
pass triggered by the watcher runs entirely with the observer still
connected: the callback's trace pairs every pass write with a connected
observer. -/
theorem c9_unhide_only_suspension :
    traceWith true unhideSteps =
      [(true, .disconnect),
       (false, .write (.classRemoved "hidden")),
       (false, .write (.classAdded "unhidden")),
       (false, .write .markerRemoved),
       (false, .reconnect)] ∧
    ∀ ws : List WriteEvent, traceWith true (observerCallbackSteps ws) =
      ws.map (fun w => (true, ObsStep.write w)) := by
  refine ⟨by decide, ?_⟩
  intro ws
  induction ws with
  | nil => rfl
  | cons w rest ih =>
    show (true, ObsStep.write w) :: traceWith true (observerCallbackSteps rest) =
      (true, ObsStep.write w) :: rest.map (fun w => (true, ObsStep.write w))
    exact congrArg _ ih

/-- **C6** (confirmed).  Reconciliation is idempotent: a second pass run
immediately on the page a first pass produced, with the same stored
value and no new results, records zero DOM writes — in particular no
marker node is inserted and no result gains a second hide-control. -/
theorem c6_second_pass_no_writes (hidePrompt : String)
    (stored : Option (List String)) (page : List ResultElement) :
    (reconcilePage hidePrompt stored
      (reconcilePage hidePrompt stored page).1).2.1 = [] :=
  reconcile_twice_no_writes hidePrompt stored page

/-- **C7** counterexample: part_000 constructs Bing with the default
`Prepend` placement but the next-sibling inverse lookup.  Hiding a Bing
result that is not its parent's first child and clicking the marker
restores the wrong element: the unrelated first sibling gains
`unhidden` while the result itself keeps its `hidden` class — the
round trip does not restore the result. -/
theorem c7_counterexample :
    (searchProvider "www.bing.com").name = "Bing" ∧
    (searchProvider "www.bing.com").placement = .prepend ∧
    hideThenUnhide (searchProvider "www.bing.com")
        [.plain [], .res ⟨["b_algo"], [.anchor ⟨"https://a.com/x", "A", none, none⟩]⟩] 1 =
      some [.plain ["unhidden"],
        .res ⟨["b_algo", "hidden"], [.anchor ⟨"https://a.com/x", "A", none, none⟩]⟩] ∧
    (["b_algo", "hidden"] : List String).contains "hidden" = true := by decide

/-- **C7** witness: for a Bing result that is its parent's first child
the round trip succeeds, leaving the result visible with its link and an
extra `unhidden` class. -/
theorem c7_round_trip_witness :
    (([.res ⟨["b_algo"], [.anchor ⟨"https://a.com/x", "A", none, none⟩]⟩] :
        List PNode).get? 0 =
      some (.res ⟨["b_algo"], [.anchor ⟨"https://a.com/x", "A", none, none⟩]⟩)) ∧
    ((⟨["b_algo"], [.anchor ⟨"https://a.com/x", "A", none, none⟩]⟩ :
      ResultElement).classes.contains "hidden" = false) ∧
    (parseHostname (getLinkFromResultElement
      ⟨["b_algo"], [.anchor ⟨"https://a.com/x", "A", none, none⟩]⟩) = some "a.com") ∧
    lookupConsistent (searchProvider "www.bing.com")
      [.res ⟨["b_algo"], [.anchor ⟨"https://a.com/x", "A", none, none⟩]⟩] 0
      ⟨["b_algo"], [.anchor ⟨"https://a.com/x", "A", none, none⟩]⟩ ∧
    hideThenUnhide (searchProvider "www.bing.com")
        [.res ⟨["b_algo"], [.anchor ⟨"https://a.com/x", "A", none, none⟩]⟩] 0 =
      some (([.res ⟨["b_algo"], [.anchor ⟨"https://a.com/x", "A", none, none⟩]⟩] :
        List PNode).set 0
        (.res (addUnhidden ⟨["b_algo"], [.anchor ⟨"https://a.com/x", "A", none, none⟩]⟩))) := by
  have hcons : lookupConsistent (searchProvider "www.bing.com")
      [.res ⟨["b_algo"], [.anchor ⟨"https://a.com/x", "A", none, none⟩]⟩] 0
      ⟨["b_algo"], [.anchor ⟨"https://a.com/x", "A", none, none⟩]⟩ := by
    unfold lookupConsistent
    rw [if_pos (by decide)]
    exact Or.inr rfl
  exact ⟨by decide, by decide, by decide, hcons,
    hideThenUnhide_roundTrip (searchProvider "www.bing.com") _ 0 _ "a.com"
      (by decide) (by decide) (by decide) hcons⟩

/-- **C8** counterexample: `saveOptions` stores the textarea lines
verbatim — no URL-hostname canonicalization — so a full URL entered in
the options form never matches any extracted hostname: with
`"http://example.com/page"` saved, a result linking to hostname
`example.com` is not hidden, contradicting the claim for the
options-form add operation. -/
theorem c8_counterexample :
    saveOptions "http://example.com/page" = ["http://example.com/page"] ∧
    parseHostname "https://example.com/x" = some "example.com" ∧
    shouldHide "https://example.com/x"
      (some (saveOptions "http://example.com/page")) = .ok false := by decide

theorem addLinkClick_contains (u host : String) (stored : Option (List String))
    (sites : List String) (hu : parseHostname u = some host)
    (ha : addLinkClick u stored = .ok sites) : sites.contains host = true := by
  unfold addLinkClick at ha
  rw [hu] at ha
  simp only [JsResult.ok.injEq] at ha
  subst ha
  by_cases hc : (stored.getD []).contains host = true
  · rw [if_pos hc]
    exact hc
  · rw [if_neg hc]
    simp

/-- **C8** (corrected).  Entries added through the hide-control click
handler are canonicalized via URL-hostname parsing: adding
`http://example.com/page` or `https://example.com/` through it yields a
stored list containing hostname `example.com`, and any result whose
link has that hostname is then classified as hidden — regardless of
scheme, path or query.  (Entries saved through the options form are
stored verbatim: see the counterexample.) -/
theorem c8_click_handler_canonicalizes (u1 u2 link host : String)
    (stored : Option (List String)) (sites1 sites2 : List String)
    (h1 : parseHostname u1 = some host) (h2 : parseHostname u2 = some host)
    (hl : parseHostname link = some host)
    (ha1 : addLinkClick u1 stored = .ok sites1)
    (ha2 : addLinkClick u2 stored = .ok sites2) :
    shouldHide link (some sites1) = .ok true ∧
    shouldHide link (some sites2) = .ok true := by
  have hc1 := addLinkClick_contains u1 host stored sites1 h1 ha1
  have hc2 := addLinkClick_contains u2 host stored sites2 h2 ha2
  constructor
  · cases sites1 with
    | nil => cases hc1
    | cons s ss =>
      rw [shouldHide_cons_of_parse link host s ss hl, hc1]
  · cases sites2 with
    | nil => cases hc2
    | cons s ss =>
      rw [shouldHide_cons_of_parse link host s ss hl, hc2]

/-- **C8** witness: adding `http://example.com/page` and
`https://example.com/` via the click handler, starting from an absent
stored value, both make a result linking to
`https://example.com/a?b=1` hidden. -/
theorem c8_click_handler_canonicalizes_witness :
    parseHostname "http://example.com/page" = some "example.com" ∧
    parseHostname "https://example.com/" = some "example.com" ∧
    parseHostname "https://example.com/a?b=1" = some "example.com" ∧
    addLinkClick "http://example.com/page" none = .ok ["example.com"] ∧
    addLinkClick "https://example.com/" none = .ok ["example.com"] ∧
    (shouldHide "https://example.com/a?b=1" (some ["example.com"]) = .ok true ∧
     shouldHide "https://example.com/a?b=1" (some ["example.com"]) = .ok true) :=
  ⟨by decide, by decide, by decide, by decide, by decide,
   c8_click_handler_canonicalizes "http://example.com/page" "https://example.com/"
     "https://example.com/a?b=1" "example.com" none ["example.com"] ["example.com"]
     (by decide) (by decide) (by decide) (by decide) (by decide)⟩

/-- **C10** (confirmed).  The `unhidden` class is permanent: every class
transformation the system applies — `hideResult`'s add of `hidden`, the
reconciler's remove of `hidden`, the unhide handler's
remove-`hidden`/add-`unhidden` — preserves (or establishes) membership
of `unhidden`, and across any sequence of reconciliation passes a result
that carries `unhidden` still carries it, so a result that was hidden
and unhidden stays distinguishable from one that was never hidden. -/
theorem c10_unhidden_permanent (passes : List (String × Option (List String)))
    (page : List ResultElement) (i : Nat) (r r' : ResultElement)
    (h1 : page.get? i = some r) (h2 : (applyPasses passes page).get? i = some r')
    (hu : r.classes.contains "unhidden" = true) :
    r'.classes.contains "unhidden" = true ∧
    (∀ cs, (hideClassTransform cs).contains "unhidden" = cs.contains "unhidden") ∧
    (∀ cs, (showClassTransform cs).contains "unhidden" = cs.contains "unhidden") ∧
    (∀ cs, (unhideClassTransform cs).contains "unhidden" = true) := by
  refine ⟨applyPasses_preserves_unhidden passes page i r r' h1 h2 hu, ?_, ?_, ?_⟩
  · intro cs
    exact contains_addClassOnce_ne cs "hidden" "unhidden" (by decide)
  · intro cs
    exact contains_removeClassAll_ne cs "hidden" "unhidden" (by decide)
  · intro cs
    exact contains_addClassOnce_self _ _

/-- **C10** witness: a result carrying `unhidden` still carries it after
a reconciliation pass that leaves it visible and appends its
hide-control. -/
theorem c10_unhidden_permanent_witness :
    (([⟨["b_algo", "unhidden"], [.anchor ⟨"https://b.com/x", "t", none, none⟩]⟩] :
        List ResultElement).get? 0 =
      some ⟨["b_algo", "unhidden"], [.anchor ⟨"https://b.com/x", "t", none, none⟩]⟩) ∧
    ((applyPasses [("HP", some ["a.com"])]
        [⟨["b_algo", "unhidden"], [.anchor ⟨"https://b.com/x", "t", none, none⟩]⟩]).get? 0 =
      some ⟨["b_algo", "unhidden"],
        [.anchor ⟨"https://b.com/x", "t", none, none⟩,
         .anchor ⟨"javascript:;", "HP", some "hide-result-link", some "https://b.com/x"⟩]⟩) ∧
    ((["b_algo", "unhidden"] : List String).contains "unhidden" = true) ∧
    ((⟨["b_algo", "unhidden"],
        [.anchor ⟨"https://b.com/x", "t", none, none⟩,
         .anchor ⟨"javascript:;", "HP", some "hide-result-link", some "https://b.com/x"⟩]⟩ :
      ResultElement).classes.contains "unhidden" = true) :=
  ⟨by decide, by decide, by decide,
   (c10_unhidden_permanent [("HP", some ["a.com"])]
     [⟨["b_algo", "unhidden"], [.anchor ⟨"https://b.com/x", "t", none, none⟩]⟩] 0
     ⟨["b_algo", "unhidden"], [.anchor ⟨"https://b.com/x", "t", none, none⟩]⟩
     ⟨["b_algo", "unhidden"],
       [.anchor ⟨"https://b.com/x", "t", none, none⟩,
        .anchor ⟨"javascript:;", "HP", some "hide-result-link", some "https://b.com/x"⟩]⟩
     (by decide) (by decide) (by decide)).1⟩

end SearchHide
